import Mathlib

/-!
Verification development for the orchestrator loop of
`examples/agnostic-3agents/run_orchestrator_loop.py`.

Texts are modelled as `List Char`; Python `str` helpers (`splitlines`,
`strip`, slicing, `"\n".join`) are embedded as executable functions, and the
handful of fixed regular expressions used by the program are embedded as
bespoke decidable matchers over `List Char` that mirror the semantics of the
compiled patterns (`re.IGNORECASE`, `re.MULTILINE`, per-line `re.match`).
-/

namespace Orch

/-- Python strings are modelled as lists of characters. -/
abbrev Text := List Char

/-- Shorthand turning a Lean string literal into a `Text`. -/
def str (s : String) : Text := s.data

/-- Python `\s` (whitespace) restricted to the ASCII range plus the
additional control characters Python's `re` treats as whitespace. -/
def isPySpace (c : Char) : Bool :=
  c = ' ' || c = '\t' || c = '\n' || c = '\r' || c = '\x0b' || c = '\x0c' ||
  c = '\x1c' || c = '\x1d' || c = '\x1e' || c = '\x1f' || c = '\x85'

/-- ASCII word characters, Python `\w` restricted to ASCII. -/
def isWordChar (c : Char) : Bool :=
  ('a' ≤ c && c ≤ 'z') || ('A' ≤ c && c ≤ 'Z') || ('0' ≤ c && c ≤ '9') || c = '_'

/-- ASCII digits, Python `\d`. -/
def isDigitChar (c : Char) : Bool := '0' ≤ c && c ≤ '9'

/-- Characters `str.splitlines` treats as line boundaries. -/
def isLineBreak (c : Char) : Bool :=
  c = '\n' || c = '\r' || c = '\x0b' || c = '\x0c' ||
  c = '\x1c' || c = '\x1d' || c = '\x1e' || c = '\x85' ||
  c = '\u2028' || c = '\u2029'

/-- Lower-case an ASCII letter (code points 65-90 shift to 97-122), as
used by `re.IGNORECASE` on ASCII input. -/
def lcAscii (c : Char) : Char :=
  if 65 ≤ c.toNat && c.toNat ≤ 90 then Char.ofNat (c.toNat + 32) else c

/-- Worker for `splitlines`: accumulates the current line (reversed). -/
def splitlinesGo : Text → Text → List Text
  | [], acc => [acc.reverse]
  | '\r' :: '\n' :: rest, acc =>
    acc.reverse :: (match rest with | [] => [] | _ :: _ => splitlinesGo rest [])
  | c :: rest, acc =>
    if isLineBreak c then
      acc.reverse :: (match rest with | [] => [] | _ :: _ => splitlinesGo rest [])
    else
      splitlinesGo rest (c :: acc)

/-- Python `str.splitlines()`: splits at line-break characters, treating
`\r\n` as a single break and adding no empty final line for a trailing
break; the empty string yields no lines. -/
def splitlines : Text → List Text
  | [] => []
  | s => splitlinesGo s []

/-- Python `"\n".join(lines)`. -/
def joinNL : List Text → Text
  | [] => []
  | [l] => l
  | l :: ls => l ++ '\n' :: joinNL ls

/-- Python `str.strip()`: drop whitespace from both ends. -/
def pyStrip (s : Text) : Text :=
  ((s.dropWhile isPySpace).reverse.dropWhile isPySpace).reverse

/-- Python truthiness check `not s.strip()` for a string. -/
def isBlank (s : Text) : Bool := pyStrip s = []

/-- Python list slicing `l[:k]` for a possibly negative bound `k`. -/
def pySliceTo (k : Int) (l : List α) : List α :=
  if 0 ≤ k then l.take k.toNat else l.take (l.length - k.natAbs)

/-- Decimal rendering of a Python integer, as an f-string would produce. -/
def intToStr (i : Int) : Text :=
  if i < 0 then '-' :: Nat.toDigits 10 i.natAbs else Nat.toDigits 10 i.toNat

example : splitlines (str "a\nb") = [str "a", str "b"] := by decide
example : splitlines (str "a\r\nb\n") = [str "a", str "b"] := by decide
example : splitlines (str "\n") = [[]] := by decide
example : splitlines (str "") = [] := by decide
example : splitlines (str "a\n\nb") = [str "a", [], str "b"] := by decide
example : joinNL [str "a", [], str "b"] = str "a\n\nb" := by decide
example : pyStrip (str "  hi \t") = str "hi" := by decide
example : pySliceTo 2 [1, 2, 3] = [1, 2] := by decide
example : pySliceTo (-1) [1, 2, 3] = [1, 2] := by decide
example : intToStr 30 = str "30" := by decide
example : intToStr (-7) = str "-7" := by decide

end Orch

namespace Orch

/-- Case-insensitive literal match: if `pat` is a caseless prefix of `s`,
return the remainder of `s`. Mirrors matching a fixed ASCII literal under
`re.IGNORECASE`. -/
def stripPrefixCI : Text → Text → Option Text
  | [], s => some s
  | _ :: _, [] => none
  | c :: pat, d :: s => if lcAscii d = lcAscii c then stripPrefixCI pat s else none

/-- All suffixes of `s` at which `re.search` may start a match. -/
def searchStarts (s : Text) : List Text := s.tails

/-- Suffixes following each `\n` of `s`. -/
def afterNewlines : Text → List Text
  | [] => []
  | '\n' :: rest => rest :: afterNewlines rest
  | _ :: rest => afterNewlines rest

/-- Suffixes of `s` at which `^` can match under `re.MULTILINE`:
the whole string and the suffix after every newline. -/
def lineStarts (s : Text) : List Text := s :: afterNewlines s

/-- After the final character of a match for `...\w\b`, the word boundary
holds iff the remaining text does not begin with a word character. -/
def wordBoundaryAfter : Text → Bool
  | [] => true
  | c :: _ => !isWordChar c

/-- Matcher for `APPROVED_REVIEW_RE`, the compiled pattern
`^\s*REVIEW_RESULT:\s*APPROVED\b` with `re.MULTILINE | re.IGNORECASE`,
used via `.search`: some multiline line start is followed by whitespace,
the literal `REVIEW_RESULT:`, whitespace, `APPROVED`, and a word boundary. -/
def searchApprovedReview (s : Text) : Bool :=
  (lineStarts s).any fun t =>
    match stripPrefixCI (str "REVIEW_RESULT:") (t.dropWhile isPySpace) with
    | none => false
    | some r =>
      match stripPrefixCI (str "APPROVED") (r.dropWhile isPySpace) with
      | none => false
      | some r2 => wordBoundaryAfter r2

/-- Matcher for `PASS_RESULT_RE`, the compiled pattern
`^\s*RESULT:\s*PASS\b` with `re.MULTILINE | re.IGNORECASE`, used via
`.search`. -/
def searchPassResult (s : Text) : Bool :=
  (lineStarts s).any fun t =>
    match stripPrefixCI (str "RESULT:") (t.dropWhile isPySpace) with
    | none => false
    | some r =>
      match stripPrefixCI (str "PASS") (r.dropWhile isPySpace) with
      | none => false
      | some r2 => wordBoundaryAfter r2

/-- Per-line anchored matcher for `re.match(r"^\s*" + literal, line)` with
`re.IGNORECASE`: optional whitespace then a caseless literal. -/
def lineStartCI (kw : String) (l : Text) : Bool :=
  (stripPrefixCI (str kw) (l.dropWhile isPySpace)).isSome

/-- Per-line anchored matcher for the section-header patterns of the form
`^\s*-?\s*` followed by a literal, with `re.IGNORECASE`. -/
def lineStartDashCI (kw : String) (l : Text) : Bool :=
  let s1 := l.dropWhile isPySpace
  let s2 := match s1 with
    | '-' :: r => r.dropWhile isPySpace
    | _ => s1
  (stripPrefixCI (str kw) s2).isSome

example : searchApprovedReview (str "intro\n  review_result:  APPROVED\nmore") = true := by decide
example : searchApprovedReview (str "REVIEW_RESULT: APPROVEDX") = false := by decide
example : searchApprovedReview (str "x REVIEW_RESULT: APPROVED") = false := by decide
example : searchPassResult (str "RESULT: PASS") = true := by decide
example : searchPassResult (str "RESULT: FAIL") = false := by decide
example : lineStartCI "REVIEW_NOTES:" (str "  Review_Notes: ok") = true := by decide
example : lineStartDashCI "Risks" (str " - risks: none") = true := by decide

end Orch

namespace Orch

/-- Does some alternative of `ws` match caselessly at the start of `t`? -/
def anyLitAt (ws : List Text) (t : Text) : Bool :=
  ws.any fun w => (stripPrefixCI w t).isSome

/-- Does `s` contain some alternative of `ws` as a caseless substring?
This is `re.search` on a plain alternation of literals with
`re.IGNORECASE`, the shape of every `PROGRAMMER_EVIDENCE_PATTERNS` entry. -/
def searchAnyCI (ws : List Text) (s : Text) : Bool :=
  (searchStarts s).any (anyLitAt ws)

/-- Gap matcher for `.{0,maxGap}` followed by `p`: some `k ≤ maxGap`
non-newline characters can be skipped so that `p` holds on the rest
(`.` does not match `\n` without `re.DOTALL`). -/
def gapThen (maxGap : Nat) (p : Text → Bool) (s : Text) : Bool :=
  (List.range (maxGap + 1)).any fun k => (s.take k).all (· ≠ '\n') && p (s.drop k)

/-- Matcher at one position for the analyst-pattern shape
`(dom1|...|domN)\w*\s.{0,gap}G2`: a caseless domain alternative, a maximal
run of word characters (`\w*` is followed by `\s`, and word characters are
never whitespace, so only the maximal run can succeed), one whitespace
character, a bounded gap, then the second-group matcher `g2`. -/
def domGapAt (doms : List Text) (gap : Nat) (g2 : Text → Bool) (t : Text) : Bool :=
  doms.any fun w =>
    match stripPrefixCI w t with
    | none => false
    | some r =>
      match r.dropWhile isWordChar with
      | [] => false
      | c :: r2 => isPySpace c && gapThen gap g2 r2

/-- Domain alternatives of `ANALYST_EVIDENCE_PATTERNS[0]`. -/
def artifactDomWords : List Text :=
  [str "artifact", str "proposal", str "design", str "tasks", str "spec"]

/-- Verdict alternatives of `ANALYST_EVIDENCE_PATTERNS[0]`. -/
def artifactVerdictWords : List Text :=
  [str "verified", str "missing", str "incomplete", str "correct",
   str "present", str "created", str "updated"]

/-- Domain alternatives of `ANALYST_EVIDENCE_PATTERNS[1]`; the character
class `P[1-4]` is expanded into its four alternatives. -/
def traceDomWords : List Text :=
  [str "P1", str "P2", str "P3", str "P4", str "traceability", str "phase"]

/-- Coverage alternatives of `ANALYST_EVIDENCE_PATTERNS[1]`. -/
def traceGrpWords : List Text :=
  [str "coverage", str "gap", str "confirmed", str "traced",
   str "missing", str "complete"]

/-- Domain alternatives of `ANALYST_EVIDENCE_PATTERNS[2]`. -/
def downstreamDomWords : List Text := [str "downstream", str "contract"]

/-- Literal alternatives of the second group of
`ANALYST_EVIDENCE_PATTERNS[2]`. -/
def downstreamGrpWords : List Text :=
  [str "module", str "service", str "component", str "endpoint"]

/-- `ANALYST_EVIDENCE_PATTERNS[0]`:
`(artifact|proposal|design|tasks|spec)\w*\s.{0,30}(verified|missing|incomplete|correct|present|created|updated)`
with `re.IGNORECASE`, used via `.search`. -/
def searchAnalystPat1 (s : Text) : Bool :=
  (searchStarts s).any (domGapAt artifactDomWords 30 (anyLitAt artifactVerdictWords))

/-- `ANALYST_EVIDENCE_PATTERNS[1]`:
`(P[1-4]|traceability|phase)\w*\s.{0,30}(coverage|gap|confirmed|traced|missing|complete)`. -/
def searchAnalystPat2 (s : Text) : Bool :=
  (searchStarts s).any (domGapAt traceDomWords 30 (anyLitAt traceGrpWords))

/-- Matcher for `\w+\.\w{2,4}` at a position: a nonempty maximal word-char
run (`\w+` is followed by the literal dot, which is not a word character),
a dot, then at least two word characters. -/
def fileRefAt (t : Text) : Bool :=
  (t.takeWhile isWordChar ≠ []) &&
    (match t.dropWhile isWordChar with
     | '.' :: r => (r.takeWhile isWordChar).length ≥ 2
     | _ => false)

/-- `ANALYST_EVIDENCE_PATTERNS[2]`:
`(downstream|contract)\w*\s.{0,40}(\w+\.\w{2,4}|module|service|component|endpoint)`. -/
def searchAnalystPat3 (s : Text) : Bool :=
  (searchStarts s).any (domGapAt downstreamDomWords 40
    (fun t => fileRefAt t || anyLitAt downstreamGrpWords t))

/-- Second group of `ANALYST_EVIDENCE_PATTERNS[3]`:
`(\d+\s*(action|step|item|concrete)|includes|contains|lists)`; `\d+` is
followed by `\s*` then a letter, so both runs are matched maximally. -/
def handoffGrpAt (t : Text) : Bool :=
  anyLitAt [str "includes", str "contains", str "lists"] t ||
  ((t.takeWhile isDigitChar ≠ []) &&
    anyLitAt [str "action", str "step", str "item", str "concrete"]
      ((t.dropWhile isDigitChar).dropWhile isPySpace))

/-- The zero- or one-element list of a possible match remainder. -/
def optToList : Option Text → List Text
  | some r => [r]
  | none => []

/-- First group of `ANALYST_EVIDENCE_PATTERNS[3]`: `(handoff|action\s?item)`,
returning each possible remainder (`\s?` makes the alternative with and
without one whitespace character both possible). -/
def handoffDomAt (t : Text) : List Text :=
  optToList (stripPrefixCI (str "handoff") t) ++
  (match stripPrefixCI (str "action") t with
   | some r =>
     optToList (stripPrefixCI (str "item") r) ++
     (match r with
      | c :: r2 =>
        if isPySpace c then optToList (stripPrefixCI (str "item") r2) else []
      | [] => [])
   | none => [])

/-- `ANALYST_EVIDENCE_PATTERNS[3]`:
`(handoff|action\s?item)\w*\s.{0,30}(\d+\s*(action|step|item|concrete)|includes|contains|lists)`. -/
def searchAnalystPat4 (s : Text) : Bool :=
  (searchStarts s).any fun t =>
    (handoffDomAt t).any fun r =>
      match r.dropWhile isWordChar with
      | [] => false
      | c :: r2 => isPySpace c && gapThen 30 handoffGrpAt r2

/-- The list `ANALYST_EVIDENCE_PATTERNS` as searcher functions. -/
def ANALYST_EVIDENCE_PATTERNS : List (Text → Bool) :=
  [searchAnalystPat1, searchAnalystPat2, searchAnalystPat3, searchAnalystPat4]

/-- Alternatives of `PROGRAMMER_EVIDENCE_PATTERNS[0]`. -/
def programmerWords1 : List Text :=
  [str "implementation", str "code", str "task", str "change",
   str "diff", str "file"]

/-- `PROGRAMMER_EVIDENCE_PATTERNS[0]`: `implementation|code|task|change|diff|file`. -/
def searchProgrammerPat1 (s : Text) : Bool :=
  searchAnyCI programmerWords1 s

/-- `PROGRAMMER_EVIDENCE_PATTERNS[1]`: `validation|test|command|run|not_run|pytest|conda`. -/
def searchProgrammerPat2 (s : Text) : Bool :=
  searchAnyCI [str "validation", str "test", str "command", str "run",
               str "not_run", str "pytest", str "conda"] s

/-- `PROGRAMMER_EVIDENCE_PATTERNS[2]`: `risk|regression|quality|coverage|evidence`. -/
def searchProgrammerPat3 (s : Text) : Bool :=
  searchAnyCI [str "risk", str "regression", str "quality", str "coverage",
               str "evidence"] s

/-- `PROGRAMMER_EVIDENCE_PATTERNS[3]`: `fix|issue|defect|gap|failure`. -/
def searchProgrammerPat4 (s : Text) : Bool :=
  searchAnyCI [str "fix", str "issue", str "defect", str "gap", str "failure"] s

/-- The list `PROGRAMMER_EVIDENCE_PATTERNS` as searcher functions. -/
def PROGRAMMER_EVIDENCE_PATTERNS : List (Text → Bool) :=
  [searchProgrammerPat1, searchProgrammerPat2, searchProgrammerPat3,
   searchProgrammerPat4]

example : searchAnalystPat1 (str "the proposal verified ok") = true := by decide
example : searchAnalystPat1 (str "a fine proposal") = false := by decide
example : searchAnalystPat1 (str "artifacts list is updated") = true := by decide
example : searchAnalystPat2 (str "p1 coverage gap") = true := by decide
example : searchAnalystPat3 (str "downstream foo.py") = true := by decide
example : searchAnalystPat3 (str "downstream foo.p") = false := by decide
example : searchAnalystPat4 (str "handoff includes 3 items") = true := by decide
example : searchAnalystPat4 (str "action item with 3 steps") = true := by decide
example : searchProgrammerPat1 (str "code") = true := by decide

end Orch

namespace Orch

/-- The configuration knobs of `run_orchestrator_loop.py` that the embedded
functions read (module-level globals set by `_apply_config`). Integer knobs
are Python ints, modelled as `Int`. -/
structure Config where
  maxRounds : Int
  maxReviewCycles : Int
  minReviewCyclesBeforeApproval : Int
  requireReviewEvidence : Bool
  reviewEvidenceMinMatch : Int
  condenseReviewFeedback : Bool
  maxFeedbackLines : Int
  maxTestEvidenceLines : Int
  condenseCrossPhase : Bool
  maxCrossPhaseLines : Int
  strictFileHandoff : Bool
  idleGraceSeconds : Int
  responseTimeout : Int
deriving DecidableEq, Repr

/-- Index of the first element satisfying `p`, as found by the
`for i, line in enumerate(lines)` scan of `_extract_section`. -/
def firstIdx (p : α → Bool) : List α → Option Nat
  | [] => none
  | x :: xs => if p x then some 0 else (firstIdx p xs).map (· + 1)

/-- Embedding of `_extract_section(text, start_pattern, stop_pattern)`.
The two compiled per-line regexes are passed as line predicates; the
function scans the lines of `text` for the first line matching `startP`,
then (only on the following lines, and only when a start line was found)
for the first line matching `stopP`, and joins the enclosed line range. -/
def extractSection (startP : Text → Bool) (stopP : Option (Text → Bool))
    (text : Text) : Text :=
  let lines := splitlines text
  match firstIdx startP lines with
  | none => []
  | some i =>
    match stopP with
    | none => joinNL (lines.drop i)
    | some q =>
      match firstIdx q (lines.drop (i + 1)) with
      | none => joinNL (lines.drop i)
      | some k => joinNL ((lines.drop i).take (k + 1))

/-- The start-pattern predicate `^\s*REVIEW_NOTES:` used by the gate and by
`extract_review_notes`. -/
def reviewNotesLine (l : Text) : Bool := lineStartCI "REVIEW_NOTES:" l

/-- The per-line predicate `re.match(r"^\s*RESULT:", line)` used by
`extract_test_evidence`. -/
def resultLine (l : Text) : Bool := lineStartCI "RESULT:" l

/-- The start-pattern predicate `^\s*EVIDENCE:` used by
`extract_test_evidence`. -/
def evidenceLine (l : Text) : Bool := lineStartCI "EVIDENCE:" l

/-- Embedding of `extract_review_notes(review_text)`. -/
def extract_review_notes (cfg : Config) (reviewText : Text) : Text :=
  if !cfg.condenseReviewFeedback then reviewText
  else
    let condensed := extractSection reviewNotesLine none reviewText
    let lines := pySliceTo cfg.maxFeedbackLines (splitlines condensed)
    let lines :=
      if isBlank lines.flatten then
        pySliceTo cfg.maxFeedbackLines (splitlines reviewText)
      else lines
    joinNL lines

/-- The `combined` string built inside `extract_test_evidence`: the
`RESULT:` lines joined, plus the `EVIDENCE:` section when nonempty. -/
def testEvidenceCombined (testText : Text) : Text :=
  let resultLines := (splitlines testText).filter resultLine
  let evidenceSection := extractSection evidenceLine none testText
  let combined := joinNL resultLines
  if evidenceSection ≠ [] then combined ++ '\n' :: evidenceSection else combined

/-- Embedding of `extract_test_evidence(test_text)`. -/
def extract_test_evidence (cfg : Config) (testText : Text) : Text :=
  if !cfg.condenseReviewFeedback then testText
  else
    let lines := pySliceTo cfg.maxTestEvidenceLines
      (splitlines (testEvidenceCombined testText))
    let lines :=
      if isBlank lines.flatten then
        pySliceTo cfg.maxTestEvidenceLines (splitlines testText)
      else lines
    joinNL lines

/-- Embedding of `condense_analyst_for_programmer(analyst_out)`. -/
def condense_analyst_for_programmer (cfg : Config) (analystOut : Text) : Text :=
  if !cfg.condenseCrossPhase then analystOut
  else
    let sections :=
      ([extractSection (lineStartDashCI "OpenSpec artifacts")
          (some (lineStartDashCI "Implementation notes")) analystOut,
        extractSection (lineStartDashCI "Implementation notes")
          (some (lineStartDashCI "Risks")) analystOut,
        extractSection (lineStartDashCI "Risks")
          (some (lineStartDashCI "Downstream impact")) analystOut
       ]).filter (fun c => !isBlank c)
    if sections = [] then
      joinNL (pySliceTo cfg.maxCrossPhaseLines (splitlines analystOut))
    else
      joinNL (pySliceTo cfg.maxCrossPhaseLines (splitlines (joinNL sections)))

/-- Embedding of `condense_programmer_for_tester(programmer_out)`. -/
def condense_programmer_for_tester (cfg : Config) (programmerOut : Text) : Text :=
  if !cfg.condenseCrossPhase then programmerOut
  else
    let sections :=
      ([extractSection (lineStartDashCI "Files changed")
          (some (lineStartDashCI "Behavior implemented")) programmerOut,
        extractSection (lineStartDashCI "Behavior implemented")
          (some (lineStartDashCI "Known limitations")) programmerOut
       ]).filter (fun c => !isBlank c)
    if sections = [] then
      joinNL (pySliceTo cfg.maxCrossPhaseLines (splitlines programmerOut))
    else
      joinNL (pySliceTo cfg.maxCrossPhaseLines (splitlines (joinNL sections)))

/-- Embedding of `is_review_approved(review_text, review_cycle, review_role)`. -/
def is_review_approved (cfg : Config) (reviewText : Text) (reviewCycle : Int)
    (reviewRole : Text) : Bool :=
  if !searchApprovedReview reviewText then false
  else if reviewCycle < cfg.minReviewCyclesBeforeApproval then false
  else if !cfg.requireReviewEvidence then true
  else
    let notes := extractSection reviewNotesLine none reviewText
    if isBlank notes then false
    else
      let patterns :=
        if reviewRole = str "analyst" then ANALYST_EVIDENCE_PATTERNS
        else PROGRAMMER_EVIDENCE_PATTERNS
      let hits := (patterns.filter (fun p => p notes)).length
      (hits : Int) ≥ cfg.reviewEvidenceMinMatch

/-- A small default configuration mirroring the hardcoded defaults, used in
concrete evaluations. -/
def defaultConfig : Config :=
  { maxRounds := 8, maxReviewCycles := 3, minReviewCyclesBeforeApproval := 2,
    requireReviewEvidence := true, reviewEvidenceMinMatch := 3,
    condenseReviewFeedback := true, maxFeedbackLines := 30,
    maxTestEvidenceLines := 120, condenseCrossPhase := true,
    maxCrossPhaseLines := 40, strictFileHandoff := true,
    idleGraceSeconds := 30, responseTimeout := 1800 }

example :
    extractSection reviewNotesLine none (str "a\nREVIEW_NOTES:\n- x\n- y")
      = str "REVIEW_NOTES:\n- x\n- y" := by decide
example :
    extractSection (lineStartDashCI "Implementation notes")
      (some (lineStartDashCI "Risks")) (str "- Implementation notes: do X\n  with Y\n- Risks: low")
      = str "- Implementation notes: do X\n  with Y" := by decide
example :
    is_review_approved defaultConfig
      (str "REVIEW_RESULT: APPROVED\nREVIEW_NOTES:\ncode fixed\ntest run\nrisk low")
      2 (str "programmer") = true := by decide
example :
    is_review_approved defaultConfig
      (str "REVIEW_RESULT: APPROVED\nREVIEW_NOTES:\ncode fixed\ntest run\nrisk low")
      1 (str "programmer") = false := by decide
example :
    is_review_approved defaultConfig (str "REVIEW_RESULT: REVISE") 2 (str "analyst")
      = false := by decide

end Orch

namespace Orch

/-- The five fixed pipeline roles. -/
inductive Role
  | analyst | peerAnalyst | programmer | peerProgrammer | tester
deriving DecidableEq, Repr

/-- A per-role mapping, such as `terminal_ids` or the per-role provider part
of `AGENT_CONFIG`. -/
structure RoleMap (α : Type) where
  analyst : α
  peerAnalyst : α
  programmer : α
  peerProgrammer : α
  tester : α
deriving DecidableEq, Repr

/-- Look up a role in a `RoleMap`. -/
def RoleMap.get (m : RoleMap α) : Role → α
  | .analyst => m.analyst
  | .peerAnalyst => m.peerAnalyst
  | .programmer => m.programmer
  | .peerProgrammer => m.peerProgrammer
  | .tester => m.tester

/-- The five output slots of the `outputs` dict. -/
inductive Slot
  | analyst | analystReview | programmer | programmerReview | tester
deriving DecidableEq, Repr

/-- The `outputs` mapping: one text per output slot. -/
structure OutMap where
  analyst : Text
  analystReview : Text
  programmer : Text
  programmerReview : Text
  tester : Text
deriving DecidableEq, Repr

/-- Look up a slot in an `OutMap`. -/
def OutMap.get (m : OutMap) : Slot → Text
  | .analyst => m.analyst
  | .analystReview => m.analystReview
  | .programmer => m.programmer
  | .programmerReview => m.programmerReview
  | .tester => m.tester

/-- The `outputs` dict with every slot cleared to the empty string. -/
def emptyOutputs : OutMap := ⟨[], [], [], [], []⟩

/-- The phase constants `PHASE_ANALYST` .. `PHASE_DONE`. -/
inductive Phase
  | analyst | programmer | tester | done
deriving DecidableEq, Repr

/-- The string value a phase is stored as (`"analyst"`, ..., `"done"`). -/
def phaseText : Phase → Text
  | .analyst => str "analyst"
  | .programmer => str "programmer"
  | .tester => str "tester"
  | .done => str "done"

/-- The validation applied by `load_state` to `current_phase`: any of the
four known phase strings maps to its phase, anything else defaults to
`PHASE_ANALYST`. -/
def phaseOfText (t : Text) : Phase :=
  if t = str "analyst" then .analyst
  else if t = str "programmer" then .programmer
  else if t = str "tester" then .tester
  else if t = str "done" then .done
  else .analyst

/-- The placeholder text the feedback buffers are initialised and reset to. -/
def noneYet : Text := str "None yet."

/-- The mutable run state of the orchestrator: the module-level globals of
section 10 of the source, gathered into one record. -/
structure RunState where
  sessionName : Text
  terminalIds : RoleMap Text
  round : Int
  phase : Phase
  finalStatus : Text
  feedback : Text
  analystFeedback : Text
  programmerFeedback : Text
  programmerContextForRetry : Text
  outputs : OutMap
deriving DecidableEq, Repr

/-- A per-role `terminals` entry in the state file: the legacy format is a
bare terminal-id string, the current format is an `id`/`provider` object. -/
inductive TermEntry
  | legacy (id : Text)
  | modern (id : Text) (provider : Text)
deriving DecidableEq, Repr

/-- The JSON document written by `save_state` (and read by `load_state`),
field for field. -/
structure SavedState where
  version : Int
  updatedAt : Text
  api : Text
  provider : Text
  wd : Text
  prompt : Text
  currentRound : Int
  currentPhase : Text
  finalStatus : Text
  sessionName : Text
  terminals : RoleMap TermEntry
  feedback : Text
  analystFeedback : Text
  programmerFeedback : Text
  programmerContextForRetry : Text
  outputs : OutMap
deriving DecidableEq, Repr

/-- The configuration-derived values `save_state` reads besides the run
state: `API`, `PROVIDER`, `WD`, `PROMPT`, the per-role providers of
`AGENT_CONFIG`, and the timestamp. -/
structure SaveCtx where
  api : Text
  provider : Text
  wd : Text
  prompt : Text
  agentProviders : RoleMap Text
  updatedAt : Text
deriving DecidableEq, Repr

/-- Embedding of `save_state()`: serialize the full run state, storing each
role's terminal as an `id`/`provider` object whose provider comes from
`AGENT_CONFIG`. -/
def save_state (ctx : SaveCtx) (st : RunState) : SavedState where
  version := 1
  updatedAt := ctx.updatedAt
  api := ctx.api
  provider := ctx.provider
  wd := ctx.wd
  prompt := ctx.prompt
  currentRound := st.round
  currentPhase := phaseText st.phase
  finalStatus := st.finalStatus
  sessionName := st.sessionName
  terminals :=
    { analyst := .modern st.terminalIds.analyst ctx.agentProviders.analyst
      peerAnalyst := .modern st.terminalIds.peerAnalyst ctx.agentProviders.peerAnalyst
      programmer := .modern st.terminalIds.programmer ctx.agentProviders.programmer
      peerProgrammer := .modern st.terminalIds.peerProgrammer ctx.agentProviders.peerProgrammer
      tester := .modern st.terminalIds.tester ctx.agentProviders.tester }
  feedback := st.feedback
  analystFeedback := st.analystFeedback
  programmerFeedback := st.programmerFeedback
  programmerContextForRetry := st.programmerContextForRetry
  outputs := st.outputs

/-- Per-role loading step of `load_state`: a dict entry yields its `id` and
is kept as stored; a legacy string entry yields the id and, when the id is
nonempty, is normalized to an `id`/`provider` object carrying the state
file's top-level provider. -/
def loadTerm (stateProvider : Text) : TermEntry → Text × TermEntry
  | .modern id p => (id, .modern id p)
  | .legacy s => (s, if s ≠ [] then .modern s stateProvider else .legacy s)

/-- Embedding of `load_state()`: the run state read back from a state file,
paired with the normalized `_loaded_state_terminals` mapping. -/
def load_state (sf : SavedState) : RunState × RoleMap TermEntry :=
  let ta := loadTerm sf.provider sf.terminals.analyst
  let tpa := loadTerm sf.provider sf.terminals.peerAnalyst
  let tp := loadTerm sf.provider sf.terminals.programmer
  let tpp := loadTerm sf.provider sf.terminals.peerProgrammer
  let tt := loadTerm sf.provider sf.terminals.tester
  ({ sessionName := sf.sessionName
     terminalIds := ⟨ta.1, tpa.1, tp.1, tpp.1, tt.1⟩
     round := sf.currentRound
     phase := phaseOfText sf.currentPhase
     finalStatus := sf.finalStatus
     feedback := sf.feedback
     analystFeedback := sf.analystFeedback
     programmerFeedback := sf.programmerFeedback
     programmerContextForRetry := sf.programmerContextForRetry
     outputs := sf.outputs },
   ⟨ta.2, tpa.2, tp.2, tpp.2, tt.2⟩)

end Orch

namespace Orch

/-- The loop state threaded through one iteration of the main `while` loop:
the run state, the `_start_at_peer` flag, and the number of agent
dispatches performed so far (`send_and_wait` calls). Agent responses are
supplied by an oracle `Nat → Text` indexed by that dispatch counter. -/
structure LoopState where
  rs : RunState
  startAtPeer : Bool
  dispatched : Nat
deriving DecidableEq, Repr

/-- The prefix of the message written to `feedback` when analyst review
cycles exhaust without approval. -/
def exhaustMsgAnalyst : Text :=
  str "Peer analyst did not approve after MAX_REVIEW_CYCLES. Latest review:\n"

/-- The prefix of the message written to `feedback` when programmer review
cycles exhaust without approval. -/
def exhaustMsgProgrammer : Text :=
  str "Peer programmer did not approve after MAX_REVIEW_CYCLES. Latest review:\n"

/-- The review-cycle `for` loop of the ANALYST phase: `n` remaining
iterations, current cycle number `cycle`. Each iteration dispatches the
analyst (unless `_start_at_peer` skips it once), dispatches the peer
reviewer, and either breaks approved or stores condensed review notes in
`analyst_feedback`. Returns the state and the `analyst_approved` flag. -/
def analystCycles (cfg : Config) (oracle : Nat → Text) :
    Nat → Int → LoopState → LoopState × Bool
  | 0, _, ls => (ls, false)
  | n + 1, cycle, ls =>
    let ls :=
      if ls.startAtPeer then { ls with startAtPeer := false }
      else { ls with rs.outputs.analyst := oracle ls.dispatched,
                     dispatched := ls.dispatched + 1 }
    let review := oracle ls.dispatched
    let ls := { ls with rs.outputs.analystReview := review,
                        dispatched := ls.dispatched + 1 }
    if is_review_approved cfg review cycle (str "analyst") then
      ({ ls with rs.analystFeedback := noneYet }, true)
    else
      let ls := { ls with rs.analystFeedback := extract_review_notes cfg review }
      analystCycles cfg oracle n (cycle + 1) ls

/-- The statements of the ANALYST phase block before its review-cycle
loop: reset a blank `analyst_feedback` and clear the two cycle outputs
(the analyst slot only when the first dispatch is not skipped). -/
def analystEntry (ls : LoopState) : LoopState :=
  let ls := if isBlank ls.rs.analystFeedback
    then { ls with rs.analystFeedback := noneYet } else ls
  let ls := if !ls.startAtPeer then { ls with rs.outputs.analyst := [] } else ls
  { ls with rs.outputs.analystReview := [] }

/-- The statements of the ANALYST phase block after its review-cycle loop:
on exhaustion without approval write the cycle-exhaustion notice into
`feedback`, advance the phase to PROGRAMMER, and reset a blank
`programmer_feedback`. -/
def analystExit (cfg : Config) (res : LoopState × Bool) : LoopState :=
  let ls :=
    if !res.2 then
      { res.1 with rs.feedback :=
          exhaustMsgAnalyst ++
            extract_review_notes cfg res.1.rs.outputs.analystReview }
    else res.1
  let ls := { ls with rs.phase := .programmer }
  if isBlank ls.rs.programmerFeedback
    then { ls with rs.programmerFeedback := noneYet } else ls

/-- The ANALYST phase block of the main loop body (guarded on the current
phase): entry statements, the review cycles, exit statements. -/
def analystBlock (cfg : Config) (oracle : Nat → Text) (ls : LoopState) : LoopState :=
  if ls.rs.phase ≠ .analyst then ls
  else analystExit cfg
    (analystCycles cfg oracle cfg.maxReviewCycles.toNat 1 (analystEntry ls))

/-- The review-cycle `for` loop of the PROGRAMMER phase, mirroring
`analystCycles` with the programmer slots and the `"programmer"` role. -/
def programmerCycles (cfg : Config) (oracle : Nat → Text) :
    Nat → Int → LoopState → LoopState × Bool
  | 0, _, ls => (ls, false)
  | n + 1, cycle, ls =>
    let ls :=
      if ls.startAtPeer then { ls with startAtPeer := false }
      else { ls with rs.outputs.programmer := oracle ls.dispatched,
                     dispatched := ls.dispatched + 1 }
    let review := oracle ls.dispatched
    let ls := { ls with rs.outputs.programmerReview := review,
                        dispatched := ls.dispatched + 1 }
    if is_review_approved cfg review cycle (str "programmer") then
      ({ ls with rs.programmerFeedback := noneYet }, true)
    else
      let ls := { ls with rs.programmerFeedback := extract_review_notes cfg review }
      programmerCycles cfg oracle n (cycle + 1) ls

/-- Result of a phase block that can roll back: either the block rolled the
phase back to its prerequisite and the body `continue`s, or it completed. -/
inductive ProgRes
  | rolledBack (ls : LoopState)
  | completed (ls : LoopState)
deriving DecidableEq, Repr

/-- The statements of the PROGRAMMER phase block before its review-cycle
loop. -/
def programmerEntry (ls : LoopState) : LoopState :=
  let ls := if isBlank ls.rs.programmerFeedback
    then { ls with rs.programmerFeedback := noneYet } else ls
  let ls := if !ls.startAtPeer then { ls with rs.outputs.programmer := [] } else ls
  { ls with rs.outputs.programmerReview := [] }

/-- The statements of the PROGRAMMER phase block after its review-cycle
loop: on exhaustion without approval write the cycle-exhaustion notice
into `feedback`, then advance the phase to TESTER. -/
def programmerExit (cfg : Config) (res : LoopState × Bool) : LoopState :=
  let ls :=
    if !res.2 then
      { res.1 with rs.feedback :=
          exhaustMsgProgrammer ++
            extract_review_notes cfg res.1.rs.outputs.programmerReview }
    else res.1
  { ls with rs.phase := .tester }

/-- The PROGRAMMER phase block: rolls back to ANALYST when
`outputs["analyst"]` is blank, otherwise entry statements, the review
cycles, exit statements. -/
def programmerBlock (cfg : Config) (oracle : Nat → Text) (ls : LoopState) : ProgRes :=
  if ls.rs.phase ≠ .programmer then .completed ls
  else if isBlank ls.rs.outputs.analyst then
    .rolledBack { ls with rs.phase := .analyst }
  else .completed (programmerExit cfg
    (programmerCycles cfg oracle cfg.maxReviewCycles.toNat 1 (programmerEntry ls)))

/-- Result of the TESTER phase block. -/
inductive TestRes
  | skipped (ls : LoopState)
  | rolledBack (ls : LoopState)
  | passed (ls : LoopState)
  | failed (ls : LoopState)
deriving DecidableEq, Repr

/-- The TESTER phase block: rolls back to PROGRAMMER when
`outputs["programmer"]` is blank; otherwise dispatches the tester once.
On a `RESULT: PASS` marker the phase becomes DONE with final status PASS
(the process then exits 0); otherwise condensed test evidence goes to
`feedback`, condensed programmer output to `programmer_context_for_retry`,
the round increments, the phase resets to ANALYST, the per-cycle feedback
buffers reset and all output slots clear. -/
def testerBlock (cfg : Config) (oracle : Nat → Text) (ls : LoopState) : TestRes :=
  if ls.rs.phase ≠ .tester then .skipped ls
  else if isBlank ls.rs.outputs.programmer then
    .rolledBack { ls with rs.phase := .programmer }
  else
    let t := oracle ls.dispatched
    let ls := { ls with rs.outputs.tester := t, dispatched := ls.dispatched + 1 }
    if searchPassResult t then
      .passed { ls with rs.phase := .done, rs.finalStatus := str "PASS" }
    else
      let ls := { ls with
        rs.feedback := extract_test_evidence cfg t,
        rs.programmerContextForRetry :=
          condense_programmer_for_tester cfg ls.rs.outputs.programmer }
      .failed { ls with
        rs.round := ls.rs.round + 1,
        rs.phase := .analyst,
        rs.analystFeedback := noneYet,
        rs.programmerFeedback := noneYet,
        rs.outputs := emptyOutputs }

/-- Outcome of one iteration of the `while` body: either `sys.exit(code)`
was reached, or the body finished and the loop re-checks its condition. -/
inductive BodyOut
  | exit (code : Int) (ls : LoopState)
  | next (ls : LoopState)
deriving DecidableEq, Repr

/-- One iteration of the main `while` loop body: the three phase blocks in
order, with a rollback acting as `continue` and a tester PASS exiting 0. -/
def loopBody (cfg : Config) (oracle : Nat → Text) (ls : LoopState) : BodyOut :=
  let ls := analystBlock cfg oracle ls
  match programmerBlock cfg oracle ls with
  | .rolledBack ls => .next ls
  | .completed ls =>
    match testerBlock cfg oracle ls with
    | .skipped ls => .next ls
    | .rolledBack ls => .next ls
    | .passed ls => .exit 0 ls
    | .failed ls => .next ls

/-- The post-loop epilogue reached when `current_round > MAX_ROUNDS`:
phase DONE, final status FAIL, exit code 1. -/
def exhaustRounds (ls : LoopState) : LoopState :=
  { ls with rs.phase := .done, rs.finalStatus := str "FAIL" }

/-- Fuel-bounded driver of the main `while current_round <= MAX_ROUNDS`
loop: `none` when the fuel ran out, otherwise the exit code and final
state. -/
def runLoop (cfg : Config) (oracle : Nat → Text) :
    Nat → LoopState → Option (Int × LoopState)
  | 0, _ => none
  | fuel + 1, ls =>
    if ls.rs.round ≤ cfg.maxRounds then
      match loopBody cfg oracle ls with
      | .exit code ls => some (code, ls)
      | .next ls => runLoop cfg oracle fuel ls
    else
      some (1, exhaustRounds ls)

end Orch

namespace Orch

/-- Embedding of `build_analyst_prompt(round_num, analyst_cycle)`. The
explore block (stateful `explore_block_for`) and the response-file
instruction (built from the filesystem path) are passed in as parameters;
the mutable globals read by the builder come from the run state. -/
def build_analyst_prompt (exploreBlock respInstr : Text)
    (roundNum analystCycle : Int) (st : RunState) : Text :=
  joinNL (
    [exploreBlock, [],
     str "Round: " ++ intToStr roundNum,
     str "Analyst review cycle: " ++ intToStr analystCycle,
     str "Latest tester feedback:",
     st.feedback]
    ++ (if roundNum > 1 && st.programmerContextForRetry ≠ [] then
          [str "Previous round programmer changes (context only):",
           st.programmerContextForRetry]
        else [])
    ++ [str "Latest peer analyst feedback:", st.analystFeedback, [],
        str "Guard lines:",
        str "system anaylist: dont do testing, dont implement code", [],
        str "Task:"]
    ++ (if roundNum > 1 then
          [str "1) Use the OpenSpec explore skill to investigate the test failure described in the tester feedback above.",
           str "2) Based on your findings, use the OpenSpec fast-forward skill to update the artifacts."]
        else
          [str "1) Explore the codebase.",
           str "2) Create/update all OpenSpec artifacts using the OpenSpec fast-forward skill."])
    ++ [str "3) Return ANALYST_SUMMARY exactly as profile format.",
        str "4) Include mandatory sections in ANALYST_SUMMARY:",
        str "   - Artifact review per file: proposal.md, design.md, tasks.md, specs/* (PASS|REVISE + evidence).",
        str "   - P1-P4 traceability: map each scenario requirement to artifact sections.",
        str "   - Phased delivery coverage: phase-by-phase completeness/gaps.",
        str "   - Downstream contract impact: planner/API/converter/revised_document implications.",
        str "   - Explicit handoff: concrete actions for programmer.",
        respInstr])

/-- The terminal statuses treated as finished by the handoff poll. -/
def idleLike (status : Text) : Bool :=
  status = str "idle" || status = str "completed"

/-- A failure raised by `wait_for_response_file`: Python `RuntimeError` or
`TimeoutError`, with the formatted message. -/
inductive PollFail
  | runtimeError (msg : Text)
  | timeoutError (msg : Text)
deriving DecidableEq, Repr

/-- Outcome of one iteration of the polling loop in
`wait_for_response_file`: return a response text, raise a failure, or
continue polling with an updated idle-since timer. -/
inductive PollStepRes
  | ret (content : Text)
  | fail (e : PollFail)
  | cont (idleSince : Option Int)
deriving DecidableEq, Repr

/-- Message of the `RuntimeError` raised on terminal status `error`. -/
def errStateMsg (tid : Text) : Text :=
  str "Terminal " ++ tid ++ str " entered ERROR state"

/-- Message of the strict-mode `RuntimeError` raised when the terminal has
been idle past the grace period without a response file. -/
def idleGraceMsg (role : Text) (grace : Int) : Text :=
  str "[" ++ role ++ str "] Agent finished (idle " ++ intToStr grace ++
  str "s) but did not write response file (STRICT_FILE_HANDOFF=1, no fallback)"

/-- Message of the strict-mode `RuntimeError` raised when the overall
timeout elapses with the terminal idle and no response file. -/
def timeoutNoFileMsg (role : Text) (timeout : Int) : Text :=
  str "[" ++ role ++ str "] Response file not written after " ++
  intToStr timeout ++ str "s (STRICT_FILE_HANDOFF=1, no fallback)"

/-- Message of the `TimeoutError` raised when the overall timeout elapses
while the terminal is still working. -/
def timeoutBusyMsg (timeout : Int) (role tid status : Text) : Text :=
  str "Timeout (" ++ intToStr timeout ++ str "s) waiting for " ++ role ++
  str " response (terminal " ++ tid ++ str ", status=" ++ status ++ str ")"

/-- The overall-timeout check at the end of each polling iteration of
`wait_for_response_file`. -/
def pollTimeoutCheck (cfg : Config) (role tid lastOutput : Text)
    (start now : Int) (status : Text) (idleSinceNew : Option Int) : PollStepRes :=
  if now - start > cfg.responseTimeout then
    if idleLike status then
      if cfg.strictFileHandoff then
        .fail (.runtimeError (timeoutNoFileMsg role cfg.responseTimeout))
      else .ret lastOutput
    else .fail (.timeoutError (timeoutBusyMsg cfg.responseTimeout role tid status))
  else .cont idleSinceNew

/-- One iteration of the polling loop of `wait_for_response_file`, given
the observations of this iteration: the terminal status string, whether
the response file exists, its content, the current monotonic time, and the
idle-since timer carried between iterations. Reading a blank file archives
it, so the file no longer exists for the idle-tracking check of the same
iteration. -/
def pollStep (cfg : Config) (role tid lastOutput : Text) (start now : Int)
    (idleSince : Option Int) (status : Text) (fileExists : Bool)
    (fileContent : Text) : PollStepRes :=
  if status = str "error" then .fail (.runtimeError (errStateMsg tid))
  else if fileExists && idleLike status && pyStrip fileContent ≠ [] then
    .ret (pyStrip fileContent)
  else
    let fileAfter := fileExists && !idleLike status
    if idleLike status && !fileAfter then
      match idleSince with
      | none => pollTimeoutCheck cfg role tid lastOutput start now status (some now)
      | some t =>
        if now - t > cfg.idleGraceSeconds then
          if cfg.strictFileHandoff then
            .fail (.runtimeError (idleGraceMsg role cfg.idleGraceSeconds))
          else .ret lastOutput
        else pollTimeoutCheck cfg role tid lastOutput start now status (some t)
    else pollTimeoutCheck cfg role tid lastOutput start now status none

/-- A JSON value, as loaded by `json.loads` for a config file. -/
inductive JVal
  | null
  | bool (b : Bool)
  | num (n : Int)
  | strv (s : Text)
  | arr (xs : List JVal)
  | obj (fields : List (Text × JVal))

/-- Python truthiness of a loaded JSON value, as applied by `bool(json_val)`
in `load_config`. -/
def pyTruthy : JVal → Bool
  | .null => false
  | .bool b => b
  | .num n => n ≠ 0
  | .strv s => s ≠ []
  | .arr xs => !xs.isEmpty
  | .obj fs => !fs.isEmpty

/-- Embedding of `_parse_env(env_var, bool)`: `None` when the variable is
unset or the empty string, otherwise `raw == "1"`. -/
def parseEnvBool (raw : Option Text) : Option Bool :=
  match raw with
  | none => none
  | some s => if s = [] then none else some (s = str "1")

/-- Resolution of one boolean config key in `load_config`: the hardcoded
default, overridden by `bool(json_val)` when the JSON lookup produced a
value (a JSON `null` reads back as Python `None` and counts as absent),
overridden in turn by a successfully parsed environment value. -/
def resolveBool (envRaw : Option Text) (jsonVal : Option JVal) (dflt : Bool) : Bool :=
  let value :=
    match jsonVal with
    | none => dflt
    | some .null => dflt
    | some j => pyTruthy j
  match parseEnvBool envRaw with
  | some b => b
  | none => value

example : resolveBool (some (str "1")) none false = true := by decide
example : resolveBool (some (str "true")) none true = false := by decide
example : resolveBool (some (str "")) (some (.bool true)) false = true := by decide
example : resolveBool none none true = true := by decide
example :
    pollStep defaultConfig (str "analyst") (str "t1") (str "out") 0 40 (some 5)
      (str "idle") false [] =
    .fail (.runtimeError (idleGraceMsg (str "analyst") 30)) := by decide

end Orch


namespace Orch

/-- A text is break-free when it contains no line-break character. -/
def NoBreak (l : Text) : Prop := ∀ c ∈ l, isLineBreak c = false

set_option maxHeartbeats 1000000 in
theorem splitlinesGo_cons (c : Char) (rest acc : Text)
    (h : c = '\r' → rest.head? ≠ some '\n') :
    splitlinesGo (c :: rest) acc =
      if isLineBreak c then acc.reverse :: splitlines rest
      else splitlinesGo rest (c :: acc) := by
  rw [splitlinesGo.eq_def]
  split
  next heq => simp at heq
  next r heq =>
    injection heq with h1 h2
    exact absurd (by rw [h2]; rfl) (h h1)
  next c' r' h1 h2 heq =>
    injection heq with e1 e2
    subst e1; subst e2
    cases rest <;> rfl

theorem splitlinesGo_crlf (rest acc : Text) :
    splitlinesGo ('\r' :: '\n' :: rest) acc = acc.reverse :: splitlines rest := by
  cases rest <;> rfl

theorem splitlines_ne_nil (s : Text) (h : s ≠ []) :
    splitlines s = splitlinesGo s [] := by
  cases s with
  | nil => simp at h
  | cons c rest => rfl

theorem ne_cr_of_noBreakChar (c : Char) (hc : isLineBreak c = false) : c ≠ '\r' := by
  intro h; subst h; simp [isLineBreak] at hc

theorem splitlinesGo_cons_noBreak (c : Char) (rest acc : Text)
    (hc : isLineBreak c = false) :
    splitlinesGo (c :: rest) acc = splitlinesGo rest (c :: acc) := by
  rw [splitlinesGo_cons c rest acc (fun e => absurd e (ne_cr_of_noBreakChar c hc)), hc]
  simp

theorem splitlinesGo_of_noBreak (l : Text) (hl : NoBreak l) (acc : Text) :
    splitlinesGo l acc = [acc.reverse ++ l] := by
  induction l generalizing acc with
  | nil => simp [splitlinesGo]
  | cons c rest ih =>
    have hc : isLineBreak c = false := hl c (by simp)
    rw [splitlinesGo_cons_noBreak c rest acc hc]
    rw [ih (fun d hd => hl d (by simp [hd])) (c :: acc)]
    simp

theorem splitlines_of_noBreak (l : Text) (hl : NoBreak l) (hne : l ≠ []) :
    splitlines l = [l] := by
  rw [splitlines_ne_nil l hne, splitlinesGo_of_noBreak l hl []]
  simp

theorem splitlinesGo_append_newline (l : Text) (hl : NoBreak l) (r acc : Text) :
    splitlinesGo (l ++ '\n' :: r) acc = (acc.reverse ++ l) :: splitlines r := by
  induction l generalizing acc with
  | nil =>
    rw [List.nil_append, splitlinesGo_cons '\n' r acc (by intro e; cases e)]
    have hb : isLineBreak '\n' = true := by decide
    rw [hb]
    simp
  | cons c rest ih =>
    have hc : isLineBreak c = false := hl c (by simp)
    rw [List.cons_append, splitlinesGo_cons_noBreak c (rest ++ '\n' :: r) acc hc]
    rw [ih (fun d hd => hl d (by simp [hd])) (c :: acc)]
    simp

theorem splitlines_append_newline (l : Text) (hl : NoBreak l) (r : Text) :
    splitlines (l ++ '\n' :: r) = l :: splitlines r := by
  have hne : l ++ '\n' :: r ≠ [] := by simp
  rw [splitlines_ne_nil _ hne, splitlinesGo_append_newline l hl r []]
  simp

theorem joinNL_cons_of_ne (l : Text) (ls : List Text) (h : ls ≠ []) :
    joinNL (l :: ls) = l ++ '\n' :: joinNL ls := by
  cases ls with
  | nil => simp at h
  | cons m ms => rfl

theorem splitlines_joinNL_length_le (ls : List Text)
    (h : ∀ l ∈ ls, NoBreak l) : (splitlines (joinNL ls)).length ≤ ls.length := by
  induction ls with
  | nil => simp [joinNL, splitlines]
  | cons l ls ih =>
    cases ls with
    | nil =>
      by_cases hl : l = []
      · subst hl; simp [joinNL, splitlines]
      · rw [show joinNL [l] = l from rfl,
           splitlines_of_noBreak l (h l (by simp)) hl]
    | cons m ms =>
      rw [joinNL_cons_of_ne l (m :: ms) (by simp),
          splitlines_append_newline l (h l (by simp)) (joinNL (m :: ms))]
      have := ih (fun x hx => h x (by simp [hx]))
      simpa using this

theorem splitlines_joinNL_exact (ls : List Text)
    (h : ∀ l ∈ ls, NoBreak l) (hne : ls ≠ [])
    (hlast : ls.getLast? ≠ some []) : splitlines (joinNL ls) = ls := by
  induction ls with
  | nil => simp at hne
  | cons l ls ih =>
    cases ls with
    | nil =>
      have hl : l ≠ [] := by
        intro e; subst e; simp [List.getLast?] at hlast
      rw [show joinNL [l] = l from rfl, splitlines_of_noBreak l (h l (by simp)) hl]
    | cons m ms =>
      rw [joinNL_cons_of_ne l (m :: ms) (by simp),
          splitlines_append_newline l (h l (by simp)) (joinNL (m :: ms))]
      rw [ih (fun x hx => h x (by simp [hx])) (by simp)
            (by rwa [List.getLast?_cons_cons] at hlast)]

theorem noBreak_mem_splitlinesGo_aux (n : Nat) :
    ∀ s acc : Text, s.length ≤ n → (∀ c ∈ acc, isLineBreak c = false) →
      ∀ l ∈ splitlinesGo s acc, NoBreak l := by
  induction n with
  | zero =>
    intro s acc hs hacc l hl
    have hsn : s = [] := by
      cases s with
      | nil => rfl
      | cons c r => simp at hs
    subst hsn
    simp [splitlinesGo] at hl
    subst hl
    intro c hc
    exact hacc c (by simpa using hc)
  | succ n ih =>
    intro s acc hs hacc l hl
    cases s with
    | nil =>
      simp [splitlinesGo] at hl
      subst hl
      intro c hc
      exact hacc c (by simpa using hc)
    | cons c rest =>
      by_cases hcr : c = '\r' ∧ rest.head? = some '\n'
      · obtain ⟨hc1, hc2⟩ := hcr
        subst hc1
        cases rest with
        | nil => simp at hc2
        | cons d r2 =>
          have hd : d = '\n' := by simpa using hc2
          subst hd
          rw [splitlinesGo_crlf r2 acc] at hl
          rcases List.mem_cons.mp hl with hh | hh
          · subst hh
            intro e he
            exact hacc e (by simpa using he)
          · cases r2 with
            | nil => simp [splitlines] at hh
            | cons e r3 =>
              rw [splitlines_ne_nil (e :: r3) (by simp)] at hh
              refine ih (e :: r3) [] ?_ (by simp) l hh
              simp at hs ⊢
              omega
      · have hna : c = '\r' → rest.head? ≠ some '\n' := by
          intro h1 h2; exact hcr ⟨h1, h2⟩
        rw [splitlinesGo_cons c rest acc hna] at hl
        by_cases hb : isLineBreak c
        · rw [if_pos hb] at hl
          rcases List.mem_cons.mp hl with hh | hh
          · subst hh
            intro e he
            exact hacc e (by simpa using he)
          · cases rest with
            | nil => simp [splitlines] at hh
            | cons d r2 =>
              rw [splitlines_ne_nil (d :: r2) (by simp)] at hh
              refine ih (d :: r2) [] ?_ (by simp) l hh
              simp at hs ⊢
              omega
        · rw [if_neg hb] at hl
          refine ih rest (c :: acc) (by simp at hs ⊢; omega) ?_ l hl
          intro d hd
          rcases List.mem_cons.mp hd with hh | hh
          · subst hh
            simpa using hb
          · exact hacc d hh

theorem noBreak_mem_splitlines (s : Text) :
    ∀ l ∈ splitlines s, NoBreak l := by
  cases s with
  | nil => intro l hl; simp [splitlines] at hl
  | cons c rest =>
    exact noBreak_mem_splitlinesGo_aux (c :: rest).length (c :: rest) []
      (Nat.le_refl _) (by simp)

theorem firstIdx_none_of (p : α → Bool) (xs : List α)
    (h : ∀ x ∈ xs, p x = false) : firstIdx p xs = none := by
  induction xs with
  | nil => rfl
  | cons x xs ih =>
    rw [firstIdx, if_neg (by simp [h x (by simp)])]
    rw [ih (fun y hy => h y (by simp [hy]))]
    rfl

theorem firstIdx_some_of (p : α → Bool) (xs : List α) (i : Nat)
    (hi : i < xs.length) (hp : p (xs.get ⟨i, hi⟩) = true)
    (hmin : ∀ j, (hj : j < i) → p (xs.get ⟨j, by omega⟩) = false) :
    firstIdx p xs = some i := by
  induction xs generalizing i with
  | nil => simp at hi
  | cons x xs ih =>
    cases i with
    | zero =>
      rw [firstIdx, if_pos (by simpa using hp)]
    | succ i =>
      have hx : p x = false := by simpa using hmin 0 (by omega)
      rw [firstIdx, if_neg (by simp [hx])]
      rw [ih i (by simpa using hi) (by simpa using hp)
            (fun j hj => by simpa using hmin (j + 1) (by omega))]
      rfl

theorem pySliceTo_length_le (k : Int) (hk : 0 ≤ k) (l : List α) :
    ((pySliceTo k l).length : Int) ≤ k := by
  rw [pySliceTo, if_pos hk]
  have h1 : (l.take k.toNat).length ≤ k.toNat := by
    simp [List.length_take]
  omega

theorem mem_pySliceTo (k : Int) (l : List α) (x : α) (h : x ∈ pySliceTo k l) :
    x ∈ l := by
  rw [pySliceTo] at h
  split at h <;> exact List.mem_of_mem_take h

theorem stripPrefixCI_suffix (w : Text) :
    ∀ s r : Text, stripPrefixCI w s = some r → r <:+ s := by
  induction w with
  | nil =>
    intro s r h
    rw [stripPrefixCI] at h
    injection h with h
    subst h
    exact List.suffix_refl s
  | cons c w ih =>
    intro s r h
    cases s with
    | nil => simp [stripPrefixCI] at h
    | cons d s' =>
      rw [stripPrefixCI] at h
      split at h
      · exact (ih s' r h).trans (List.suffix_cons d s')
      · simp at h

theorem mem_joinNL_infix (x : Text) (ls : List Text) (h : x ∈ ls) :
    x <:+: joinNL ls := by
  induction ls with
  | nil => simp at h
  | cons l ls ih =>
    rcases List.mem_cons.mp h with h | h
    · subst h
      cases ls with
      | nil => exact List.infix_refl x
      | cons m ms =>
        rw [joinNL_cons_of_ne x (m :: ms) (by simp)]
        exact ⟨[], '\n' :: joinNL (m :: ms), by simp⟩
    · have hx := ih h
      cases ls with
      | nil => simp at h
      | cons m ms =>
        rw [joinNL_cons_of_ne l (m :: ms) (by simp)]
        obtain ⟨u, v, huv⟩ := hx
        exact ⟨l ++ '\n' :: u, v, by simp [huv]⟩

end Orch

namespace Orch

theorem toNat_of_isPySpace (c : Char) (h : isPySpace c = true) :
    c.toNat = 32 ∨ c.toNat = 9 ∨ c.toNat = 10 ∨ c.toNat = 13 ∨
    c.toNat = 11 ∨ c.toNat = 12 ∨ c.toNat = 28 ∨ c.toNat = 29 ∨
    c.toNat = 30 ∨ c.toNat = 31 ∨ c.toNat = 133 := by
  simp [isPySpace] at h
  rcases h with ((((((((((h | h) | h) | h) | h) | h) | h) | h) | h) | h) | h) <;>
    (subst h; simp)

theorem lcAscii_toNat (c : Char) :
    (lcAscii c).toNat =
      if 65 ≤ c.toNat ∧ c.toNat ≤ 90 then c.toNat + 32 else c.toNat := by
  rw [lcAscii]
  by_cases h : 65 ≤ c.toNat ∧ c.toNat ≤ 90
  · rw [if_pos h]
    have hcond : (65 ≤ c.toNat && c.toNat ≤ 90) = true := by
      simp [h.1, h.2]
    rw [hcond]
    simp only [if_pos]
    have hv : Nat.isValidChar (c.toNat + 32) := Or.inl (by omega)
    unfold Char.ofNat
    rw [dif_pos hv]
    rfl
  · rw [if_neg h]
    have hcond : (65 ≤ c.toNat && c.toNat ≤ 90) = false := by
      rcases Decidable.not_and_iff_or_not.mp h with h1 | h1 <;> simp [h1]
    rw [hcond]
    simp

theorem isPySpace_lcAscii (c : Char) : isPySpace (lcAscii c) = isPySpace c := by
  by_cases h : 65 ≤ c.toNat ∧ c.toNat ≤ 90
  · have ht : (lcAscii c).toNat = c.toNat + 32 := by rw [lcAscii_toNat, if_pos h]
    have h1 : isPySpace (lcAscii c) = false := by
      by_contra hx
      rcases toNat_of_isPySpace _ (by simpa using hx) with
        hv | hv | hv | hv | hv | hv | hv | hv | hv | hv | hv <;>
        (rw [ht] at hv; omega)
    have h2 : isPySpace c = false := by
      by_contra hx
      rcases toNat_of_isPySpace _ (by simpa using hx) with hv | hv | hv | hv | hv | hv | hv | hv | hv | hv | hv <;>
        omega
    rw [h1, h2]
  · have : lcAscii c = c := by
      rw [lcAscii]
      have hcond : (65 ≤ c.toNat && c.toNat ≤ 90) = false := by
        rcases Decidable.not_and_iff_or_not.mp h with h1 | h1 <;> simp [h1]
      rw [hcond]
      simp
    rw [this]

theorem lcAscii_idem (c : Char) : lcAscii (lcAscii c) = lcAscii c := by
  by_cases h : 65 ≤ c.toNat ∧ c.toNat ≤ 90
  · have ht : (lcAscii c).toNat = c.toNat + 32 := by rw [lcAscii_toNat, if_pos h]
    rw [lcAscii]
    have hcond : (65 ≤ (lcAscii c).toNat && (lcAscii c).toNat ≤ 90) = false := by
      rw [ht]
      simp
      omega
    rw [hcond]
    simp
  · have he : lcAscii c = c := by
      rw [lcAscii]
      have hcond : (65 ≤ c.toNat && c.toNat ≤ 90) = false := by
        rcases Decidable.not_and_iff_or_not.mp h with h1 | h1 <;> simp [h1]
      rw [hcond]
      simp
    rw [he, he]

theorem dropWhile_isPySpace_map_lc (l : Text) :
    (l.map lcAscii).dropWhile isPySpace = (l.dropWhile isPySpace).map lcAscii := by
  induction l with
  | nil => rfl
  | cons c rest ih =>
    by_cases h : isPySpace c
    · simp [List.dropWhile_cons, isPySpace_lcAscii, h, ih]
    · simp [List.dropWhile_cons, isPySpace_lcAscii, h]

theorem stripPrefixCI_map_lc (w : Text) :
    ∀ t : Text, (stripPrefixCI w (t.map lcAscii)).isSome =
      (stripPrefixCI w t).isSome := by
  induction w with
  | nil => intro t; rfl
  | cons c w ih =>
    intro t
    cases t with
    | nil => rfl
    | cons d t' =>
      simp only [List.map_cons, stripPrefixCI, lcAscii_idem]
      split <;> simp [ih]

theorem lineStartCI_map_lc (kw : String) (l : Text) :
    lineStartCI kw (l.map lcAscii) = lineStartCI kw l := by
  rw [lineStartCI, lineStartCI, dropWhile_isPySpace_map_lc, stripPrefixCI_map_lc]

end Orch

namespace Orch

theorem phaseOfText_phaseText (p : Phase) : phaseOfText (phaseText p) = p := by
  cases p <;> rfl

/-- C10: for every boolean configuration key, a non-empty environment value
parses as true iff the raw string is exactly "1" (any other non-empty
string yields false), while an unset or empty environment variable is
treated as absent so that the JSON value (when present and non-null) or
the hardcoded default applies. -/
theorem c10_bool_env_resolution (raw : Option Text) (j : Option JVal) (d : Bool) :
    (∀ s : Text, raw = some s → s ≠ [] →
      (resolveBool raw j d = true ↔ s = str "1")) ∧
    ((raw = none ∨ raw = some []) →
      (j = none → resolveBool raw j d = d) ∧
      (j = some .null → resolveBool raw j d = d) ∧
      (∀ jv : JVal, j = some jv → jv ≠ .null → resolveBool raw j d = pyTruthy jv)) := by
  constructor
  · intro s hraw hne
    subst hraw
    simp [resolveBool, parseEnvBool, hne]
  · intro hraw
    have henv : parseEnvBool raw = none := by
      rcases hraw with h | h <;> subst h <;> rfl
    refine ⟨?_, ?_, ?_⟩
    · intro hj; subst hj; simp [resolveBool, henv]
    · intro hj; subst hj; simp [resolveBool, henv]
    · intro jv hj hnn
      subst hj
      cases jv with
      | null => exact absurd rfl hnn
      | bool b => simp [resolveBool, henv]
      | num n => simp [resolveBool, henv]
      | strv s => simp [resolveBool, henv]
      | arr xs => simp [resolveBool, henv]
      | obj fs => simp [resolveBool, henv]

/-- Witness for `c10_bool_env_resolution` at concrete inputs: "1" is true,
"true", "yes" and "0" are false, and an empty env value defers to the JSON
value. -/
theorem c10_bool_env_resolution_witness :
    resolveBool (some (str "1")) none false = true ∧
    resolveBool (some (str "true")) none true = false ∧
    resolveBool (some (str "yes")) none true = false ∧
    resolveBool (some (str "0")) none true = false ∧
    resolveBool (some []) (some (.bool true)) false = true ∧
    resolveBool none none true = true := by
  refine ⟨?_, ?_, ?_, ?_, ?_, ?_⟩
  · exact ((c10_bool_env_resolution (some (str "1")) none false).1
      (str "1") rfl (by decide)).mpr rfl
  · have h := (c10_bool_env_resolution (some (str "true")) none true).1
      (str "true") rfl (by decide)
    cases hb : resolveBool (some (str "true")) none true
    · rfl
    · exact absurd (h.mp hb) (by decide)
  · have h := (c10_bool_env_resolution (some (str "yes")) none true).1
      (str "yes") rfl (by decide)
    cases hb : resolveBool (some (str "yes")) none true
    · rfl
    · exact absurd (h.mp hb) (by decide)
  · have h := (c10_bool_env_resolution (some (str "0")) none true).1
      (str "0") rfl (by decide)
    cases hb : resolveBool (some (str "0")) none true
    · rfl
    · exact absurd (h.mp hb) (by decide)
  · exact (((c10_bool_env_resolution (some []) (some (.bool true)) false).2
      (Or.inr rfl)).2.2 (.bool true) rfl (by intro h; cases h)).trans rfl
  · exact ((c10_bool_env_resolution none none true).2 (Or.inl rfl)).1 rfl

/-- C5: a `save_state` followed by `load_state` reproduces every field of
the run state exactly (the loaded terminals mapping being exactly the
saved `id`/`provider` objects), and loading a state file whose terminals
are stored in the legacy bare-string format yields, for every role with a
nonempty id, a terminal normalized to an `id`/`provider` object carrying
the file's top-level provider. -/
theorem c5_state_roundtrip_and_legacy :
    (∀ (ctx : SaveCtx) (st : RunState),
      load_state (save_state ctx st) = (st, (save_state ctx st).terminals)) ∧
    (∀ (sf : SavedState) (r : Role) (id : Text),
      sf.terminals.get r = .legacy id → id ≠ [] →
      (load_state sf).2.get r = .modern id sf.provider ∧
      (load_state sf).1.terminalIds.get r = id) := by
  constructor
  · intro ctx st
    obtain ⟨sn, tids, rnd, ph, fs, fb, afb, pfb, pctx, outs⟩ := st
    obtain ⟨ta, tpa, tp, tpp, tt⟩ := tids
    cases ph <;> rfl
  · intro sf r id h hne
    cases r <;>
      (simp only [RoleMap.get] at h
       simp [load_state, RoleMap.get, h, loadTerm, hne])

/-- A concrete legacy-format state file used by the witness below. -/
def legacySavedStateSample : SavedState :=
  { version := 1, updatedAt := [], api := [], provider := str "codex",
    wd := [], prompt := [], currentRound := 2,
    currentPhase := str "programmer", finalStatus := str "RUNNING",
    sessionName := str "s1",
    terminals := ⟨.legacy (str "t1"), .legacy (str "t2"), .legacy (str "t3"),
                  .legacy (str "t4"), .legacy (str "t5")⟩,
    feedback := [], analystFeedback := [], programmerFeedback := [],
    programmerContextForRetry := [], outputs := emptyOutputs }

/-- Witness for the legacy part of `c5_state_roundtrip_and_legacy`: a
state file holding a bare terminal id is normalized on load. -/
theorem c5_state_roundtrip_and_legacy_witness :
    (load_state legacySavedStateSample).2.get .analyst =
      .modern (str "t1") (str "codex") ∧
    (load_state legacySavedStateSample).1.terminalIds.get .analyst = str "t1" :=
  c5_state_roundtrip_and_legacy.2 legacySavedStateSample .analyst (str "t1")
    rfl (by decide)

end Orch

namespace Orch

/-- C1: the approval gate returns false without a line-anchored APPROVED
verdict marker; returns false whenever the cycle number is below the
configured minimum-cycles floor, regardless of the text; returns true when
the marker and floor pass and the evidence requirement is disabled; and
with evidence required it returns false on a blank REVIEW_NOTES section
(the text from the first `REVIEW_NOTES:` line onward) and otherwise
returns true iff the number of role-specific evidence patterns matching
that section reaches the configured threshold. -/
theorem c1_is_review_approved_gate (cfg : Config) (text : Text) (cycle : Int)
    (role : Text) :
    (searchApprovedReview text = false →
      is_review_approved cfg text cycle role = false) ∧
    (cycle < cfg.minReviewCyclesBeforeApproval →
      is_review_approved cfg text cycle role = false) ∧
    (searchApprovedReview text = true →
      cfg.minReviewCyclesBeforeApproval ≤ cycle →
      cfg.requireReviewEvidence = false →
      is_review_approved cfg text cycle role = true) ∧
    (searchApprovedReview text = true →
      cfg.minReviewCyclesBeforeApproval ≤ cycle →
      cfg.requireReviewEvidence = true →
      (isBlank (extractSection reviewNotesLine none text) = true →
        is_review_approved cfg text cycle role = false) ∧
      (isBlank (extractSection reviewNotesLine none text) = false →
        (is_review_approved cfg text cycle role = true ↔
          cfg.reviewEvidenceMinMatch ≤
            (((if role = str "analyst" then ANALYST_EVIDENCE_PATTERNS
               else PROGRAMMER_EVIDENCE_PATTERNS).filter
                (fun p => p (extractSection reviewNotesLine none text))).length :
              Int)))) := by
  refine ⟨?_, ?_, ?_, ?_⟩
  · intro h
    simp [is_review_approved, h]
  · intro h
    cases hs : searchApprovedReview text <;>
      simp [is_review_approved, hs, h]
  · intro h1 h2 h3
    have h2' : ¬(cycle < cfg.minReviewCyclesBeforeApproval) := by omega
    simp [is_review_approved, h1, h2', h3]
  · intro h1 h2 h3
    have h2' : ¬(cycle < cfg.minReviewCyclesBeforeApproval) := by omega
    constructor
    · intro hb
      simp [is_review_approved, h1, h2', h3, hb]
    · intro hb
      by_cases hrole : role = str "analyst" <;>
        simp [is_review_approved, h1, h2', h3, hb, hrole, ge_iff_le]

/-- Witness for `c1_is_review_approved_gate` on concrete reviews: a
programmer review with an APPROVED marker, cycle 2 and three matching
evidence patterns is approved; the same text at cycle 1 is rejected by the
floor; text without the marker is rejected; with evidence disabled the
marker plus floor suffice. -/
theorem c1_is_review_approved_gate_witness :
    is_review_approved defaultConfig
      (str "REVIEW_RESULT: APPROVED\nREVIEW_NOTES:\ncode fixed\ntest run\nrisk low")
      2 (str "programmer") = true ∧
    is_review_approved defaultConfig
      (str "REVIEW_RESULT: APPROVED\nREVIEW_NOTES:\ncode fixed\ntest run\nrisk low")
      1 (str "programmer") = false ∧
    is_review_approved defaultConfig (str "no marker here") 5 (str "analyst")
      = false ∧
    is_review_approved
      { defaultConfig with requireReviewEvidence := false }
      (str "REVIEW_RESULT: APPROVED\nAll good.") 2 (str "analyst") = true ∧
    is_review_approved defaultConfig
      (str "REVIEW_RESULT: APPROVED\nLooks good!") 2 (str "analyst")
      = false := by
  refine ⟨?_, ?_, ?_, ?_, ?_⟩
  · exact (((c1_is_review_approved_gate defaultConfig
      (str "REVIEW_RESULT: APPROVED\nREVIEW_NOTES:\ncode fixed\ntest run\nrisk low")
      2 (str "programmer")).2.2.2 (by decide) (by decide) rfl).2 (by decide)).mpr
      (by decide)
  · exact (c1_is_review_approved_gate defaultConfig
      (str "REVIEW_RESULT: APPROVED\nREVIEW_NOTES:\ncode fixed\ntest run\nrisk low")
      1 (str "programmer")).2.1 (by decide)
  · exact (c1_is_review_approved_gate defaultConfig (str "no marker here") 5
      (str "analyst")).1 (by decide)
  · exact (c1_is_review_approved_gate
      { defaultConfig with requireReviewEvidence := false }
      (str "REVIEW_RESULT: APPROVED\nAll good.") 2 (str "analyst")).2.2.1
      (by decide) (by decide) rfl
  · exact ((c1_is_review_approved_gate defaultConfig
      (str "REVIEW_RESULT: APPROVED\nLooks good!") 2 (str "analyst")).2.2.2
      (by decide) (by decide) rfl).1 (by decide)

end Orch

namespace Orch

theorem bound_joinNL_slice (k : Int) (hk : 0 ≤ k) (ls : List Text)
    (h : ∀ l ∈ ls, NoBreak l) :
    ((splitlines (joinNL (pySliceTo k ls))).length : Int) ≤ k := by
  have h1 : (splitlines (joinNL (pySliceTo k ls))).length ≤ (pySliceTo k ls).length :=
    splitlines_joinNL_length_le _ (fun l hl => h l (mem_pySliceTo k ls l hl))
  have h2 := pySliceTo_length_le k hk ls
  omega

theorem bound_joinNL_slice_splitlines (k : Int) (hk : 0 ≤ k) (x : Text) :
    ((splitlines (joinNL (pySliceTo k (splitlines x)))).length : Int) ≤ k :=
  bound_joinNL_slice k hk (splitlines x) (noBreak_mem_splitlines x)

/-- C9: with the corresponding condensation option enabled and a
non-negative configured maximum, every condensation function returns a
text whose line count is at most that maximum, for every input — including
inputs without the expected section markers, where the head-truncation
fallback applies. -/
theorem c9_condensation_bounded (cfg : Config) (t : Text) :
    (cfg.condenseReviewFeedback = true → 0 ≤ cfg.maxFeedbackLines →
      ((splitlines (extract_review_notes cfg t)).length : Int) ≤
        cfg.maxFeedbackLines) ∧
    (cfg.condenseReviewFeedback = true → 0 ≤ cfg.maxTestEvidenceLines →
      ((splitlines (extract_test_evidence cfg t)).length : Int) ≤
        cfg.maxTestEvidenceLines) ∧
    (cfg.condenseCrossPhase = true → 0 ≤ cfg.maxCrossPhaseLines →
      ((splitlines (condense_analyst_for_programmer cfg t)).length : Int) ≤
        cfg.maxCrossPhaseLines ∧
      ((splitlines (condense_programmer_for_tester cfg t)).length : Int) ≤
        cfg.maxCrossPhaseLines) := by
  refine ⟨?_, ?_, ?_⟩
  · intro hc hk
    unfold extract_review_notes
    rw [hc]
    simp only [Bool.not_true, Bool.false_eq_true, if_false]
    split
    · exact bound_joinNL_slice_splitlines _ hk t
    · exact bound_joinNL_slice_splitlines _ hk _
  · intro hc hk
    unfold extract_test_evidence
    rw [hc]
    simp only [Bool.not_true, Bool.false_eq_true, if_false]
    split
    · exact bound_joinNL_slice_splitlines _ hk t
    · exact bound_joinNL_slice_splitlines _ hk _
  · intro hc hk
    constructor
    · unfold condense_analyst_for_programmer
      rw [hc]
      simp only [Bool.not_true, Bool.false_eq_true, if_false]
      split
      · exact bound_joinNL_slice_splitlines _ hk t
      · exact bound_joinNL_slice_splitlines _ hk _
    · unfold condense_programmer_for_tester
      rw [hc]
      simp only [Bool.not_true, Bool.false_eq_true, if_false]
      split
      · exact bound_joinNL_slice_splitlines _ hk t
      · exact bound_joinNL_slice_splitlines _ hk _

/-- Witness for `c9_condensation_bounded` on a concrete marker-free input
with small configured maxima: all four condensation results stay within
the bound even though only the fallback applies. -/
theorem c9_condensation_bounded_witness :
    ((splitlines (extract_review_notes
      { defaultConfig with maxFeedbackLines := 2 }
      (str "a\nb\nc\nd"))).length : Int) ≤ 2 ∧
    ((splitlines (extract_test_evidence
      { defaultConfig with maxTestEvidenceLines := 3 }
      (str "a\nb\nc\nd\ne"))).length : Int) ≤ 3 ∧
    ((splitlines (condense_analyst_for_programmer
      { defaultConfig with maxCrossPhaseLines := 2 }
      (str "a\nb\nc\nd"))).length : Int) ≤ 2 := by
  refine ⟨?_, ?_, ?_⟩
  · exact (c9_condensation_bounded
      { defaultConfig with maxFeedbackLines := 2 } (str "a\nb\nc\nd")).1
      rfl (by decide)
  · exact (c9_condensation_bounded
      { defaultConfig with maxTestEvidenceLines := 3 } (str "a\nb\nc\nd\ne")).2.1
      rfl (by decide)
  · exact ((c9_condensation_bounded
      { defaultConfig with maxCrossPhaseLines := 2 } (str "a\nb\nc\nd")).2.2
      rfl (by decide)).1

end Orch

namespace Orch

theorem get_drop_eq (L : List α) (i j : Nat) (h : j < (L.drop i).length) :
    (L.drop i).get ⟨j, h⟩ = L.get ⟨i + j, by simp at h; omega⟩ := by
  simp [List.getElem_drop]

/-- C8: `_extract_section` returns the empty string when no line matches
the start pattern; when the start pattern first matches at line `i` and
the stop pattern first matches afterwards at line `j > i`, it returns
lines `i..j-1` joined by newlines; when the stop pattern is absent or
never matches after line `i`, it returns lines `i` through the end; the
predicates are applied per line (anchored at line start by construction),
and the concrete anchored predicates are case-insensitive: lower-casing a
line does not change whether it matches. -/
theorem c8_extract_section_spec (startP stopP : Text → Bool) (text : Text) :
    ((∀ l ∈ splitlines text, startP l = false) →
      extractSection startP (some stopP) text = [] ∧
      extractSection startP none text = []) ∧
    (∀ i, (hi : i < (splitlines text).length) →
      startP ((splitlines text).get ⟨i, hi⟩) = true →
      (∀ m, (hm : m < i) → startP ((splitlines text).get ⟨m, by omega⟩) = false) →
      extractSection startP none text = joinNL ((splitlines text).drop i) ∧
      (∀ j, (hj : j < (splitlines text).length) → i < j →
        stopP ((splitlines text).get ⟨j, hj⟩) = true →
        (∀ m, (hm2 : m < j) → i < m →
          stopP ((splitlines text).get ⟨m, by omega⟩) = false) →
        extractSection startP (some stopP) text =
          joinNL (((splitlines text).drop i).take (j - i))) ∧
      ((∀ j, (hj : j < (splitlines text).length) → i < j →
          stopP ((splitlines text).get ⟨j, hj⟩) = false) →
        extractSection startP (some stopP) text =
          joinNL ((splitlines text).drop i))) ∧
    (∀ (kw : String) (l : Text),
      lineStartCI kw (l.map lcAscii) = lineStartCI kw l) := by
  refine ⟨?_, ?_, fun kw l => lineStartCI_map_lc kw l⟩
  · intro h
    have hf := firstIdx_none_of startP (splitlines text) h
    exact ⟨by simp [extractSection, hf], by simp [extractSection, hf]⟩
  · intro i hi hp hmin
    have hf := firstIdx_some_of startP (splitlines text) i hi hp hmin
    refine ⟨by simp [extractSection, hf], ?_, ?_⟩
    · intro j hj hij hq hmin2
      have hlen : j - i - 1 < ((splitlines text).drop (i + 1)).length := by
        simp
        omega
      have hfd : firstIdx stopP ((splitlines text).drop (i + 1)) =
          some (j - i - 1) := by
        apply firstIdx_some_of stopP _ (j - i - 1) hlen
        · rw [get_drop_eq]
          have he : i + 1 + (j - i - 1) = j := by omega
          simp only [he]
          exact hq
        · intro m hm
          rw [get_drop_eq]
          exact hmin2 (i + 1 + m) (by omega) (by omega)
      have he2 : j - i - 1 + 1 = j - i := by omega
      simp [extractSection, hf, hfd, he2]
    · intro hnone
      have hfd : firstIdx stopP ((splitlines text).drop (i + 1)) = none := by
        apply firstIdx_none_of
        intro x hx
        obtain ⟨⟨k, hk⟩, hkx⟩ := List.mem_iff_get.mp hx
        rw [get_drop_eq] at hkx
        rw [← hkx]
        have hkl : i + 1 + k < (splitlines text).length := by
          simp at hk
          omega
        exact hnone (i + 1 + k) hkl (by omega)
      simp [extractSection, hf, hfd]

/-- Witness for `c8_extract_section_spec` on a concrete five-line text:
start at line 1, stop at line 3 yields lines 1-2; a marker-free text
yields the empty string; the anchored REVIEW_NOTES predicate is
case-insensitive on a mixed-case line. -/
theorem c8_extract_section_spec_witness :
    extractSection reviewNotesLine (some evidenceLine)
      (str "a\nREVIEW_NOTES: x\nb\nEVIDENCE:\nc") = str "REVIEW_NOTES: x\nb" ∧
    extractSection reviewNotesLine none (str "no markers") = [] ∧
    lineStartCI "REVIEW_NOTES:" ((str "Review_Notes: ok").map lcAscii) =
      lineStartCI "REVIEW_NOTES:" (str "Review_Notes: ok") := by
  refine ⟨?_, ?_, ?_⟩
  · have h := ((c8_extract_section_spec reviewNotesLine evidenceLine
      (str "a\nREVIEW_NOTES: x\nb\nEVIDENCE:\nc")).2.1 1 (by decide) (by decide)
      (fun m hm => by
        have hm0 : m = 0 := by omega
        subst hm0
        rfl)).2.1 3 (by decide) (by omega) (by decide)
      (fun m hm2 him => by
        have hm2' : m = 2 := by omega
        subst hm2'
        rfl)
    rw [h]
    decide
  · exact ((c8_extract_section_spec reviewNotesLine evidenceLine
      (str "no markers")).1 (by decide)).2
  · exact (c8_extract_section_spec reviewNotesLine evidenceLine []).2.2
      "REVIEW_NOTES:" (str "Review_Notes: ok")

end Orch

namespace Orch

/-- Does `s` contain `w` as a caseless substring? -/
def hasSubstrCI (w s : Text) : Bool :=
  (searchStarts s).any fun t => (stripPrefixCI w t).isSome

/-- Does `s` contain a `\w+\.\w{2,4}` file reference at some position? -/
def hasFileRef (s : Text) : Bool := (searchStarts s).any fileRefAt

/-- Does `s` contain a match of the first group `(handoff|action\s?item)`
of `ANALYST_EVIDENCE_PATTERNS[3]` at some position? -/
def hasHandoffDom (s : Text) : Bool :=
  (searchStarts s).any fun t => !(handoffDomAt t).isEmpty

/-- Does `s` contain a match of the second group of
`ANALYST_EVIDENCE_PATTERNS[3]` at some position? -/
def hasHandoffGrp (s : Text) : Bool := (searchStarts s).any handoffGrpAt

theorem mem_optToList (o : Option Text) (x : Text) (h : x ∈ optToList o) :
    o = some x := by
  cases o with
  | none => simp [optToList] at h
  | some r =>
    simp [optToList] at h
    rw [h]

theorem hasSubstrCI_of (w s u : Text) (hu : u <:+ s)
    (h : (stripPrefixCI w u).isSome = true) : hasSubstrCI w s = true := by
  rw [hasSubstrCI, List.any_eq_true]
  exact ⟨u, (List.mem_tails u s).mpr hu, h⟩

theorem domGapAt_extract (doms : List Text) (gap : Nat) (g2 : Text → Bool)
    (t s : Text) (ht : t <:+ s) (h : domGapAt doms gap g2 t = true) :
    (∃ w ∈ doms, hasSubstrCI w s = true) ∧ (∃ u, u <:+ s ∧ g2 u = true) := by
  rw [domGapAt, List.any_eq_true] at h
  obtain ⟨w, hw, hmatch⟩ := h
  split at hmatch
  next => simp at hmatch
  next r hsp =>
    split at hmatch
    next => simp at hmatch
    next c r2 hdw =>
      simp only [Bool.and_eq_true] at hmatch
      obtain ⟨hc, hgap⟩ := hmatch
      rw [gapThen, List.any_eq_true] at hgap
      obtain ⟨k, hk, hkk⟩ := hgap
      simp only [Bool.and_eq_true] at hkk
      obtain ⟨hnl, hg2⟩ := hkk
      have h1 : r <:+ t := stripPrefixCI_suffix w t r hsp
      have h2 : c :: r2 <:+ r := by
        rw [← hdw]; exact List.dropWhile_suffix isWordChar
      have h3 : r2 <:+ c :: r2 := List.suffix_cons c r2
      have h4 : r2.drop k <:+ r2 := List.drop_suffix k r2
      refine ⟨⟨w, hw, hasSubstrCI_of w s t ht (by rw [hsp]; rfl)⟩,
        r2.drop k, ?_, hg2⟩
      exact h4.trans (h3.trans (h2.trans (h1.trans ht)))

theorem anyLitAt_extract (ws : List Text) (u s : Text) (hu : u <:+ s)
    (h : anyLitAt ws u = true) : ∃ v ∈ ws, hasSubstrCI v s = true := by
  rw [anyLitAt, List.any_eq_true] at h
  obtain ⟨v, hv, hm⟩ := h
  exact ⟨v, hv, hasSubstrCI_of v s u hu hm⟩

theorem handoffDomAt_suffix (t r : Text) (h : r ∈ handoffDomAt t) : r <:+ t := by
  rw [handoffDomAt, List.mem_append] at h
  rcases h with h | h
  · exact stripPrefixCI_suffix _ t r (mem_optToList _ r h)
  · split at h
    next r1 hsp =>
      have h1 : r1 <:+ t := stripPrefixCI_suffix _ t r1 hsp
      rw [List.mem_append] at h
      rcases h with h | h
      · exact (stripPrefixCI_suffix _ r1 r (mem_optToList _ r h)).trans h1
      · split at h
        next c r2 =>
          split at h
          next hcs =>
            exact (stripPrefixCI_suffix _ r2 r (mem_optToList _ r h)).trans
              ((List.suffix_cons c r2).trans h1)
          next => simp at h
        next => simp at h
    next => simp at h

end Orch

namespace Orch

/-- Modelled from the spec, which requires every evidence pattern to pair a
domain keyword with an "assessment/verdict keyword" ("judgment word"):
the assessment vocabulary drawn from the analyst patterns. -/
def specAssessmentWords : List Text :=
  [str "verified", str "missing", str "incomplete", str "correct",
   str "present", str "created", str "updated", str "coverage", str "gap",
   str "confirmed", str "traced", str "complete"]

/-- Counterexample to C2: `PROGRAMMER_EVIDENCE_PATTERNS[0]` matches the
input "code" — a single domain keyword mention containing no assessment or
judgment word at all — so the pattern set used for non-analyst roles does
not require any co-occurrence. -/
theorem c2_counterexample_programmer_pattern :
    searchProgrammerPat1 (str "code") = true ∧
    specAssessmentWords.all (fun v => !(hasSubstrCI v (str "code"))) = true := by
  decide

/-- C2 (amended): each ANALYST evidence pattern matches only when one of
its domain keywords co-occurs with one of its second-group terms (the
second group starting within the pattern's bounded window after the
domain word), so an input without any second-group term never matches an
analyst pattern; the patterns for every other role are plain keyword
alternations, matched by any single keyword mention. -/
theorem c2_amended_evidence_cooccurrence (s : Text) :
    (searchAnalystPat1 s = true →
      (∃ w ∈ artifactDomWords, hasSubstrCI w s = true) ∧
      (∃ v ∈ artifactVerdictWords, hasSubstrCI v s = true)) ∧
    (searchAnalystPat2 s = true →
      (∃ w ∈ traceDomWords, hasSubstrCI w s = true) ∧
      (∃ v ∈ traceGrpWords, hasSubstrCI v s = true)) ∧
    (searchAnalystPat3 s = true →
      (∃ w ∈ downstreamDomWords, hasSubstrCI w s = true) ∧
      (hasFileRef s = true ∨ ∃ v ∈ downstreamGrpWords, hasSubstrCI v s = true)) ∧
    (searchAnalystPat4 s = true →
      hasHandoffDom s = true ∧ hasHandoffGrp s = true) ∧
    (∀ w ∈ programmerWords1, hasSubstrCI w s = true →
      searchProgrammerPat1 s = true) := by
  refine ⟨?_, ?_, ?_, ?_, ?_⟩
  · intro h
    rw [searchAnalystPat1, List.any_eq_true] at h
    obtain ⟨t, htm, hmatch⟩ := h
    have ht : t <:+ s := (List.mem_tails t s).mp htm
    obtain ⟨hdom, u, hu, hg2⟩ := domGapAt_extract _ _ _ t s ht hmatch
    exact ⟨hdom, anyLitAt_extract _ u s hu hg2⟩
  · intro h
    rw [searchAnalystPat2, List.any_eq_true] at h
    obtain ⟨t, htm, hmatch⟩ := h
    have ht : t <:+ s := (List.mem_tails t s).mp htm
    obtain ⟨hdom, u, hu, hg2⟩ := domGapAt_extract _ _ _ t s ht hmatch
    exact ⟨hdom, anyLitAt_extract _ u s hu hg2⟩
  · intro h
    rw [searchAnalystPat3, List.any_eq_true] at h
    obtain ⟨t, htm, hmatch⟩ := h
    have ht : t <:+ s := (List.mem_tails t s).mp htm
    obtain ⟨hdom, u, hu, hg2⟩ := domGapAt_extract _ _ _ t s ht hmatch
    refine ⟨hdom, ?_⟩
    rcases Bool.or_eq_true_iff.mp hg2 with hf | ha
    · left
      rw [hasFileRef, List.any_eq_true]
      exact ⟨u, (List.mem_tails u s).mpr hu, hf⟩
    · right
      exact anyLitAt_extract _ u s hu ha
  · intro h
    rw [searchAnalystPat4, List.any_eq_true] at h
    obtain ⟨t, htm, hmatch⟩ := h
    have ht : t <:+ s := (List.mem_tails t s).mp htm
    rw [List.any_eq_true] at hmatch
    obtain ⟨r, hr, hrm⟩ := hmatch
    constructor
    · rw [hasHandoffDom, List.any_eq_true]
      refine ⟨t, htm, ?_⟩
      simp [List.isEmpty_iff]
      exact List.ne_nil_of_mem hr
    · split at hrm
      next => simp at hrm
      next c r2 hdw =>
        simp only [Bool.and_eq_true] at hrm
        obtain ⟨hc, hgap⟩ := hrm
        rw [gapThen, List.any_eq_true] at hgap
        obtain ⟨k, hk, hkk⟩ := hgap
        simp only [Bool.and_eq_true] at hkk
        obtain ⟨hnl, hg2⟩ := hkk
        have h1 : r <:+ t := handoffDomAt_suffix t r hr
        have h2 : c :: r2 <:+ r := by
          rw [← hdw]; exact List.dropWhile_suffix isWordChar
        have h3 : r2.drop k <:+ c :: r2 :=
          (List.drop_suffix k r2).trans (List.suffix_cons c r2)
        rw [hasHandoffGrp, List.any_eq_true]
        refine ⟨r2.drop k, ?_, hg2⟩
        exact (List.mem_tails _ s).mpr ((h3.trans (h2.trans h1)).trans ht)
  · intro w hw hsub
    rw [hasSubstrCI, List.any_eq_true] at hsub
    obtain ⟨t, htm, hm⟩ := hsub
    rw [searchProgrammerPat1, searchAnyCI, List.any_eq_true]
    refine ⟨t, htm, ?_⟩
    rw [anyLitAt, List.any_eq_true]
    exact ⟨w, hw, hm⟩

/-- Witness for `c2_amended_evidence_cooccurrence`: analyst pattern 1
matching "the proposal verified ok" forces both keyword families to be
present, and a bare "code" mention suffices for programmer pattern 1. -/
theorem c2_amended_evidence_cooccurrence_witness :
    ((∃ w ∈ artifactDomWords,
        hasSubstrCI w (str "the proposal verified ok") = true) ∧
      (∃ v ∈ artifactVerdictWords,
        hasSubstrCI v (str "the proposal verified ok") = true)) ∧
    searchProgrammerPat1 (str "only code here") = true := by
  constructor
  · exact (c2_amended_evidence_cooccurrence (str "the proposal verified ok")).1
      (by decide)
  · exact (c2_amended_evidence_cooccurrence (str "only code here")).2.2.2.2
      (str "code") (by decide) (by decide)

end Orch

namespace Orch

/-- The initial run state set up by `init_new_run` with the default
`start_agent` (before any dispatch). -/
def initialRunState : RunState :=
  { sessionName := [], terminalIds := ⟨[], [], [], [], []⟩, round := 1,
    phase := .analyst, finalStatus := str "RUNNING", feedback := noneYet,
    analystFeedback := noneYet, programmerFeedback := noneYet,
    programmerContextForRetry := [], outputs := emptyOutputs }

/-- The initial loop state: fresh run, no dispatches yet. -/
def initialLoopState : LoopState :=
  { rs := initialRunState, startAtPeer := false, dispatched := 0 }

/-- C6: in the PROGRAMMER phase with a blank analyst output the body rolls
the phase back to ANALYST, and in the TESTER phase with a blank programmer
output it rolls back to PROGRAMMER; both rollbacks continue the loop with
the state otherwise untouched and perform no agent dispatch (the dispatch
counter of the resulting state equals the old one), so no PROGRAMMER or
TESTER dispatch ever runs with a blank required upstream output. -/
theorem c6_phase_rollback (cfg : Config) (oracle : Nat → Text) (ls : LoopState) :
    (ls.rs.phase = .programmer → isBlank ls.rs.outputs.analyst = true →
      loopBody cfg oracle ls = .next { ls with rs.phase := .analyst } ∧
      ({ ls with rs.phase := Phase.analyst } : LoopState).dispatched =
        ls.dispatched) ∧
    (ls.rs.phase = .tester → isBlank ls.rs.outputs.programmer = true →
      loopBody cfg oracle ls = .next { ls with rs.phase := .programmer } ∧
      ({ ls with rs.phase := Phase.programmer } : LoopState).dispatched =
        ls.dispatched) := by
  constructor
  · intro hp hb
    refine ⟨?_, rfl⟩
    have ha : analystBlock cfg oracle ls = ls := by
      rw [analystBlock, if_pos (by rw [hp]; intro h; cases h)]
    have hpr : programmerBlock cfg oracle ls =
        .rolledBack { ls with rs.phase := .analyst } := by
      rw [programmerBlock, if_neg (by rw [hp]; intro h; exact h rfl),
        if_pos hb]
    simp only [loopBody, ha, hpr]
  · intro hp hb
    refine ⟨?_, rfl⟩
    have ha : analystBlock cfg oracle ls = ls := by
      rw [analystBlock, if_pos (by rw [hp]; intro h; cases h)]
    have hpr : programmerBlock cfg oracle ls = .completed ls := by
      rw [programmerBlock, if_pos (by rw [hp]; intro h; cases h)]
    have ht : testerBlock cfg oracle ls =
        .rolledBack { ls with rs.phase := .programmer } := by
      rw [testerBlock, if_neg (by rw [hp]; intro h; exact h rfl), if_pos hb]
    simp only [loopBody, ha, hpr, ht]

/-- Witness for `c6_phase_rollback`: concrete mid-resume states with a
missing upstream output roll back without consuming any oracle response. -/
theorem c6_phase_rollback_witness :
    loopBody defaultConfig (fun _ => [])
      { initialLoopState with rs.phase := Phase.programmer } =
      .next { initialLoopState with rs.phase := Phase.analyst } ∧
    loopBody defaultConfig (fun _ => [])
      { initialLoopState with rs.phase := Phase.tester } =
      .next { initialLoopState with rs.phase := Phase.programmer } := by
  constructor
  · exact ((c6_phase_rollback defaultConfig (fun _ => [])
      { initialLoopState with rs.phase := Phase.programmer }).1 rfl (by decide)).1
  · exact ((c6_phase_rollback defaultConfig (fun _ => [])
      { initialLoopState with rs.phase := Phase.tester }).2 rfl (by decide)).1

end Orch

namespace Orch

theorem analystCycles_feedback (cfg : Config) (oracle : Nat → Text) (n : Nat) :
    ∀ (cycle : Int) (ls : LoopState),
      ((analystCycles cfg oracle n cycle ls).1).rs.feedback = ls.rs.feedback := by
  induction n with
  | zero => intro cycle ls; rfl
  | succ n ih =>
    intro cycle ls
    cases hsp : ls.startAtPeer <;>
      (simp only [analystCycles, hsp, Bool.false_eq_true, if_false, if_true]
       split
       · rfl
       · rw [ih])

theorem programmerCycles_feedback (cfg : Config) (oracle : Nat → Text) (n : Nat) :
    ∀ (cycle : Int) (ls : LoopState),
      ((programmerCycles cfg oracle n cycle ls).1).rs.feedback =
        ls.rs.feedback := by
  induction n with
  | zero => intro cycle ls; rfl
  | succ n ih =>
    intro cycle ls
    cases hsp : ls.startAtPeer <;>
      (simp only [programmerCycles, hsp, Bool.false_eq_true, if_false, if_true]
       split
       · rfl
       · rw [ih])

end Orch

namespace Orch

theorem analystEntry_feedback (ls : LoopState) :
    (analystEntry ls).rs.feedback = ls.rs.feedback := by
  simp only [analystEntry]
  split <;> split <;> rfl

theorem programmerEntry_feedback (ls : LoopState) :
    (programmerEntry ls).rs.feedback = ls.rs.feedback := by
  simp only [programmerEntry]
  split <;> split <;> rfl

theorem analystExit_feedback (cfg : Config) (res : LoopState × Bool) :
    (analystExit cfg res).rs.feedback =
      if !res.2 then
        exhaustMsgAnalyst ++
          extract_review_notes cfg res.1.rs.outputs.analystReview
      else res.1.rs.feedback := by
  simp only [analystExit]
  split <;> split <;> rfl

theorem programmerExit_feedback (cfg : Config) (res : LoopState × Bool) :
    (programmerExit cfg res).rs.feedback =
      if !res.2 then
        exhaustMsgProgrammer ++
          extract_review_notes cfg res.1.rs.outputs.programmerReview
      else res.1.rs.feedback := by
  simp only [programmerExit]
  split <;> rfl

/-- C4 (amended): the only writes to `feedback` in the loop body are the
cycle-exhaustion notices of the ANALYST and PROGRAMMER blocks (when their
review cycles exhaust without approval, `feedback` becomes the respective
notice followed by the condensed latest review) and the TESTER block's
FAIL branch (condensed test evidence); every other outcome leaves
`feedback` unchanged, and `feedback` is embedded verbatim in the next
analyst prompt. -/
theorem c4_amended_feedback_discipline (cfg : Config) (oracle : Nat → Text)
    (ls : LoopState) :
    ((analystBlock cfg oracle ls).rs.feedback = ls.rs.feedback ∨
      ∃ t, (analystBlock cfg oracle ls).rs.feedback =
        exhaustMsgAnalyst ++ extract_review_notes cfg t) ∧
    (∀ ls', programmerBlock cfg oracle ls = .rolledBack ls' →
      ls'.rs.feedback = ls.rs.feedback) ∧
    (∀ ls', programmerBlock cfg oracle ls = .completed ls' →
      ls'.rs.feedback = ls.rs.feedback ∨
      ∃ t, ls'.rs.feedback =
        exhaustMsgProgrammer ++ extract_review_notes cfg t) ∧
    (∀ ls', testerBlock cfg oracle ls = .skipped ls' →
      ls'.rs.feedback = ls.rs.feedback) ∧
    (∀ ls', testerBlock cfg oracle ls = .rolledBack ls' →
      ls'.rs.feedback = ls.rs.feedback) ∧
    (∀ ls', testerBlock cfg oracle ls = .passed ls' →
      ls'.rs.feedback = ls.rs.feedback) ∧
    (∀ ls', testerBlock cfg oracle ls = .failed ls' →
      ls'.rs.feedback = extract_test_evidence cfg (oracle ls.dispatched)) ∧
    (∀ (exploreBlock respInstr : Text) (roundNum analystCycle : Int),
      ls.rs.feedback <:+:
        build_analyst_prompt exploreBlock respInstr roundNum analystCycle ls.rs) := by
  refine ⟨?_, ?_, ?_, ?_, ?_, ?_, ?_, ?_⟩
  · by_cases hp : ls.rs.phase = Phase.analyst
    · rw [analystBlock, if_neg (by simp [hp]), analystExit_feedback]
      split
      · exact Or.inr ⟨_, rfl⟩
      · left
        rw [analystCycles_feedback, analystEntry_feedback]
    · rw [analystBlock, if_pos hp]
      exact Or.inl rfl
  · intro ls' h
    rw [programmerBlock] at h
    split at h
    · simp at h
    · split at h
      · injection h with h
        rw [← h]
      · simp at h
  · intro ls' h
    rw [programmerBlock] at h
    split at h
    · injection h with h
      rw [← h]
      exact Or.inl rfl
    · split at h
      · simp at h
      · injection h with h
        rw [← h, programmerExit_feedback]
        split
        · exact Or.inr ⟨_, rfl⟩
        · left
          rw [programmerCycles_feedback, programmerEntry_feedback]
  · intro ls' h
    rw [testerBlock] at h
    split at h
    · injection h with h
      rw [← h]
    · split at h
      · simp at h
      · dsimp only [] at h
        split at h <;> simp at h
  · intro ls' h
    rw [testerBlock] at h
    split at h
    · simp at h
    · split at h
      · injection h with h
        rw [← h]
      · dsimp only [] at h
        split at h <;> simp at h
  · intro ls' h
    rw [testerBlock] at h
    split at h
    · simp at h
    · split at h
      · simp at h
      · dsimp only [] at h
        split at h
        · injection h with h
          rw [← h]
        · simp at h
  · intro ls' h
    rw [testerBlock] at h
    split at h
    · simp at h
    · split at h
      · simp at h
      · dsimp only [] at h
        split at h
        · simp at h
        · injection h with h
          rw [← h]
  · intro exploreBlock respInstr roundNum analystCycle
    rw [build_analyst_prompt]
    apply mem_joinNL_infix
    simp

end Orch

namespace Orch

/-- A configuration with a single review cycle, used by the C4
counterexample. -/
def c4SampleConfig : Config := { defaultConfig with maxReviewCycles := 1 }

/-- An oracle whose peer review never approves. -/
def c4SampleOracle : Nat → Text := fun n =>
  if n = 0 then str "ANALYST SUMMARY X"
  else str "REVIEW_RESULT: REVISE\nREVIEW_NOTES:\nneeds work"

/-- Counterexample to C4: running the ANALYST phase block — an operation
that is not the tester-FAIL transition — from the initial state with a
never-approving reviewer changes `feedback`, writing the review-derived
cycle-exhaustion notice into it. -/
theorem c4_counterexample_feedback_written_by_analyst_block :
    (analystBlock c4SampleConfig c4SampleOracle initialLoopState).rs.feedback ≠
      initialLoopState.rs.feedback ∧
    (analystBlock c4SampleConfig c4SampleOracle initialLoopState).rs.feedback =
      exhaustMsgAnalyst ++ str "REVIEW_NOTES:\nneeds work" := by
  decide

end Orch

namespace Orch

/-- C3: in the TESTER phase with a non-blank programmer output, a
`RESULT: PASS` marker in the tester response makes the body exit with code
0 in a state with phase DONE and final status PASS; otherwise the body
continues in a state whose `feedback` is the condensed test evidence,
whose `programmer_context_for_retry` is the condensed programmer output,
whose round is incremented by exactly one, whose phase is reset to
ANALYST, whose per-cycle feedback buffers hold the placeholder and whose
five output slots are all cleared. When any continued state's round
exceeds the configured max rounds, the next loop step returns exit code 1
with phase DONE and final status FAIL. When condensation is enabled and
the combined test evidence fills the (non-negative) configured maximum —
its truncation being non-blank and not ending in an empty line — the
stored feedback has exactly `max_test_evidence_lines` lines. -/
theorem c3_tester_phase_step (cfg : Config) (oracle : Nat → Text)
    (ls : LoopState) (hp : ls.rs.phase = Phase.tester)
    (hnb : isBlank ls.rs.outputs.programmer = false) :
    (searchPassResult (oracle ls.dispatched) = true →
      loopBody cfg oracle ls = .exit 0 { ls with
        rs.outputs.tester := oracle ls.dispatched,
        dispatched := ls.dispatched + 1,
        rs.phase := Phase.done,
        rs.finalStatus := str "PASS" }) ∧
    (searchPassResult (oracle ls.dispatched) = false →
      loopBody cfg oracle ls = .next { ls with
        rs.feedback := extract_test_evidence cfg (oracle ls.dispatched),
        rs.programmerContextForRetry :=
          condense_programmer_for_tester cfg ls.rs.outputs.programmer,
        rs.round := ls.rs.round + 1,
        rs.phase := Phase.analyst,
        rs.analystFeedback := noneYet,
        rs.programmerFeedback := noneYet,
        rs.outputs := emptyOutputs,
        dispatched := ls.dispatched + 1 }) ∧
    (∀ (ls' : LoopState) (fuel : Nat), cfg.maxRounds < ls'.rs.round →
      runLoop cfg oracle (fuel + 1) ls' =
        some (1, { ls' with rs.phase := Phase.done,
                            rs.finalStatus := str "FAIL" })) ∧
    (cfg.condenseReviewFeedback = true → 0 ≤ cfg.maxTestEvidenceLines →
      ∀ t : Text,
        isBlank (pySliceTo cfg.maxTestEvidenceLines
          (splitlines (testEvidenceCombined t))).flatten = false →
        (pySliceTo cfg.maxTestEvidenceLines
          (splitlines (testEvidenceCombined t))).getLast? ≠ some [] →
        ((pySliceTo cfg.maxTestEvidenceLines
          (splitlines (testEvidenceCombined t))).length : Int) =
          cfg.maxTestEvidenceLines →
        ((splitlines (extract_test_evidence cfg t)).length : Int) =
          cfg.maxTestEvidenceLines) := by
  have ha : analystBlock cfg oracle ls = ls := by
    rw [analystBlock, if_pos (by rw [hp]; intro h; cases h)]
  have hpr : programmerBlock cfg oracle ls = .completed ls := by
    rw [programmerBlock, if_pos (by rw [hp]; intro h; cases h)]
  refine ⟨?_, ?_, ?_, ?_⟩
  · intro hpass
    have ht : testerBlock cfg oracle ls = .passed { ls with
        rs.outputs.tester := oracle ls.dispatched,
        dispatched := ls.dispatched + 1,
        rs.phase := Phase.done,
        rs.finalStatus := str "PASS" } := by
      rw [testerBlock, if_neg (by rw [hp]; intro h; exact h rfl), if_neg (by
        rw [hnb]; intro h; cases h)]
      dsimp only []
      rw [if_pos hpass]
    simp only [loopBody, ha, hpr, ht]
  · intro hfail
    have ht : testerBlock cfg oracle ls = .failed { ls with
        rs.feedback := extract_test_evidence cfg (oracle ls.dispatched),
        rs.programmerContextForRetry :=
          condense_programmer_for_tester cfg ls.rs.outputs.programmer,
        rs.round := ls.rs.round + 1,
        rs.phase := Phase.analyst,
        rs.analystFeedback := noneYet,
        rs.programmerFeedback := noneYet,
        rs.outputs := emptyOutputs,
        dispatched := ls.dispatched + 1 } := by
      rw [testerBlock, if_neg (by rw [hp]; intro h; exact h rfl), if_neg (by
        rw [hnb]; intro h; cases h)]
      dsimp only []
      rw [if_neg (by rw [hfail]; intro h; cases h)]
    simp only [loopBody, ha, hpr, ht]
  · intro ls' fuel hgt
    rw [runLoop, if_neg (by omega)]
    rfl
  · intro hc hk t hblank hlast hlen
    have hres : extract_test_evidence cfg t =
        joinNL (pySliceTo cfg.maxTestEvidenceLines
          (splitlines (testEvidenceCombined t))) := by
      rw [extract_test_evidence, hc]
      simp only [Bool.not_true, Bool.false_eq_true, if_false]
      rw [if_neg (by rw [hblank]; intro h; cases h)]
    rw [hres]
    have hne : pySliceTo cfg.maxTestEvidenceLines
        (splitlines (testEvidenceCombined t)) ≠ [] := by
      intro he
      rw [he] at hblank
      simp [isBlank, pyStrip] at hblank
    rw [splitlines_joinNL_exact _
      (fun l hl => noBreak_mem_splitlines _ l (mem_pySliceTo _ _ l hl))
      hne hlast]
    exact hlen

end Orch

namespace Orch

/-- Configuration for the C3 witness: three test-evidence lines, one round. -/
def c3SampleConfig : Config :=
  { defaultConfig with maxTestEvidenceLines := 3, maxRounds := 1 }

/-- A loop state sitting at the TESTER phase with a programmer output. -/
def c3SampleState : LoopState :=
  { initialLoopState with rs.phase := Phase.tester,
                          rs.outputs.programmer := str "did work" }

/-- A tester oracle failing with a five-line combined evidence. -/
def c3FailOracle : Nat → Text := fun _ =>
  str "RESULT: FAIL\nEVIDENCE:\n- a\n- b\n- c"

/-- A tester oracle reporting PASS. -/
def c3PassOracle : Nat → Text := fun _ => str "RESULT: PASS\nEVIDENCE:\n- ok"

/-- Witness for `c3_tester_phase_step`: the concrete PASS run exits 0 with
phase DONE / PASS; the concrete FAIL run continues with condensed
feedback, round 2 and cleared outputs; the incremented round exceeds
`max_rounds = 1`, so the next loop step exits 1 with phase DONE / FAIL;
and the feedback holds exactly 3 lines although the combined evidence had
5. -/
theorem c3_tester_phase_step_witness :
    loopBody c3SampleConfig c3PassOracle c3SampleState =
      .exit 0 { c3SampleState with
        rs.outputs.tester := c3PassOracle c3SampleState.dispatched,
        dispatched := c3SampleState.dispatched + 1,
        rs.phase := Phase.done,
        rs.finalStatus := str "PASS" } ∧
    loopBody c3SampleConfig c3FailOracle c3SampleState =
      .next { c3SampleState with
        rs.feedback :=
          extract_test_evidence c3SampleConfig
            (c3FailOracle c3SampleState.dispatched),
        rs.programmerContextForRetry :=
          condense_programmer_for_tester c3SampleConfig
            c3SampleState.rs.outputs.programmer,
        rs.round := c3SampleState.rs.round + 1,
        rs.phase := Phase.analyst,
        rs.analystFeedback := noneYet,
        rs.programmerFeedback := noneYet,
        rs.outputs := emptyOutputs,
        dispatched := c3SampleState.dispatched + 1 } ∧
    runLoop c3SampleConfig c3FailOracle 1
      { c3SampleState with rs.round := 2 } =
      some (1, { { c3SampleState with rs.round := 2 } with
        rs.phase := Phase.done, rs.finalStatus := str "FAIL" }) ∧
    ((splitlines (extract_test_evidence c3SampleConfig
      (str "RESULT: FAIL\nEVIDENCE:\n- a\n- b\n- c"))).length : Int) = 3 := by
  refine ⟨?_, ?_, ?_, ?_⟩
  · exact (c3_tester_phase_step c3SampleConfig c3PassOracle c3SampleState
      rfl (by decide)).1 (by decide)
  · exact (c3_tester_phase_step c3SampleConfig c3FailOracle c3SampleState
      rfl (by decide)).2.1 (by decide)
  · exact (c3_tester_phase_step c3SampleConfig c3FailOracle c3SampleState
      rfl (by decide)).2.2.1 { c3SampleState with rs.round := 2 } 0 (by decide)
  · exact (c3_tester_phase_step c3SampleConfig c3FailOracle c3SampleState
      rfl (by decide)).2.2.2 rfl (by decide)
      (str "RESULT: FAIL\nEVIDENCE:\n- a\n- b\n- c")
      (by decide) (by decide) (by decide)

end Orch

namespace Orch

theorem infix_append_right (a b c : Text) (h : a <:+: b) : a <:+: b ++ c := by
  obtain ⟨u, v, huv⟩ := h
  exact ⟨u, v ++ c, by rw [← huv]; simp⟩

theorem infix_append_left (a b c : Text) (h : a <:+: c) : a <:+: b ++ c := by
  obtain ⟨u, v, huv⟩ := h
  exact ⟨b ++ u, v, by rw [← huv]; simp⟩

theorem role_infix_idleGraceMsg (role : Text) (grace : Int) :
    role <:+: idleGraceMsg role grace := by
  rw [idleGraceMsg]
  apply infix_append_right
  apply infix_append_right
  apply infix_append_right
  exact infix_append_left role (str "[") role (List.infix_refl role)

theorem grace_infix_idleGraceMsg (role : Text) (grace : Int) :
    intToStr grace <:+: idleGraceMsg role grace := by
  rw [idleGraceMsg]
  apply infix_append_right
  exact infix_append_left _ _ _ (List.infix_refl (intToStr grace))

/-- C7: with strict file handoff, a terminal reporting idle/completed
without the response file for longer than the idle-grace duration makes
the poll fail with a `RuntimeError` whose message names the role and the
grace period; an overall elapsed time beyond the timeout while the status
is neither idle/completed nor error raises a `TimeoutError` instead — a
different failure kind (distinct constructors) — and a terminal status of
error fails immediately regardless of the other observations. -/
theorem c7_handoff_failure_modes (cfg : Config) (role tid lastOutput : Text)
    (start now t0 : Int) (status fileContent : Text) :
    (cfg.strictFileHandoff = true → idleLike status = true →
      status ≠ str "error" → now - t0 > cfg.idleGraceSeconds →
      pollStep cfg role tid lastOutput start now (some t0) status false
          fileContent =
        .fail (.runtimeError (idleGraceMsg role cfg.idleGraceSeconds)) ∧
      role <:+: idleGraceMsg role cfg.idleGraceSeconds ∧
      intToStr cfg.idleGraceSeconds <:+:
        idleGraceMsg role cfg.idleGraceSeconds) ∧
    (idleLike status = false → status ≠ str "error" →
      now - start > cfg.responseTimeout →
      ∀ (fileExists : Bool) (idleSince : Option Int),
        pollStep cfg role tid lastOutput start now idleSince status fileExists
            fileContent =
          .fail (.timeoutError
            (timeoutBusyMsg cfg.responseTimeout role tid status))) ∧
    (status = str "error" →
      ∀ (fileExists : Bool) (idleSince : Option Int),
        pollStep cfg role tid lastOutput start now idleSince status fileExists
            fileContent = .fail (.runtimeError (errStateMsg tid))) ∧
    (∀ m1 m2 : Text, PollFail.runtimeError m1 ≠ PollFail.timeoutError m2) := by
  refine ⟨?_, ?_, ?_, fun m1 m2 h => by cases h⟩
  · intro hstrict hidle herr hgrace
    refine ⟨?_, role_infix_idleGraceMsg role cfg.idleGraceSeconds,
      grace_infix_idleGraceMsg role cfg.idleGraceSeconds⟩
    rw [pollStep, if_neg herr]
    rw [if_neg (by simp)]
    dsimp only []
    rw [if_pos (by simp [hidle])]
    rw [if_pos hgrace, if_pos hstrict]
  · intro hidle herr htime fileExists idleSince
    rw [pollStep.eq_def, if_neg herr]
    rw [if_neg (by simp [hidle])]
    dsimp only []
    rw [if_neg (by simp [hidle])]
    rw [pollTimeoutCheck, if_pos htime, if_neg (by simp [hidle])]
  · intro herr fileExists idleSince
    rw [pollStep.eq_def, if_pos herr]

end Orch

namespace Orch

/-- Witness for `c7_handoff_failure_modes` at concrete observations: an
idle terminal 35 seconds past a 30-second grace with no file fails with
the idle-grace `RuntimeError` (whose message contains the role and the
grace period); a still-working terminal past the 1800-second timeout fails
with the distinct `TimeoutError`; an error status fails immediately. -/
theorem c7_handoff_failure_modes_witness :
    pollStep defaultConfig (str "analyst") (str "t1") (str "last") 0 40
        (some 5) (str "idle") false [] =
      .fail (.runtimeError (idleGraceMsg (str "analyst") 30)) ∧
    str "analyst" <:+: idleGraceMsg (str "analyst") 30 ∧
    intToStr 30 <:+: idleGraceMsg (str "analyst") 30 ∧
    pollStep defaultConfig (str "analyst") (str "t1") (str "last") 0 1801
        none (str "processing") false [] =
      .fail (.timeoutError
        (timeoutBusyMsg 1800 (str "analyst") (str "t1") (str "processing"))) ∧
    pollStep defaultConfig (str "analyst") (str "t1") (str "last") 0 1
        none (str "error") true (str "content") =
      .fail (.runtimeError (errStateMsg (str "t1"))) := by
  have h1 := (c7_handoff_failure_modes defaultConfig (str "analyst") (str "t1")
    (str "last") 0 40 5 (str "idle") []).1 rfl (by decide) (by decide) (by decide)
  refine ⟨h1.1, h1.2.1, h1.2.2, ?_, ?_⟩
  · exact (c7_handoff_failure_modes defaultConfig (str "analyst") (str "t1")
      (str "last") 0 1801 0 (str "processing") []).2.1 (by decide) (by decide)
      (by decide) false none
  · exact (c7_handoff_failure_modes defaultConfig (str "analyst") (str "t1")
      (str "last") 0 1 0 (str "error") (str "content")).2.2.1 rfl true none

end Orch

namespace Orch

/-- Witness for `c4_amended_feedback_discipline`: a concrete programmer
rollback leaves `feedback` unchanged, and the initial feedback placeholder
is embedded in a concrete analyst prompt. -/
theorem c4_amended_feedback_discipline_witness :
    (({ initialLoopState with rs.phase := Phase.analyst } : LoopState)).rs.feedback
        = initialLoopState.rs.feedback ∧
    initialLoopState.rs.feedback <:+:
      build_analyst_prompt (str "EXPLORE") (str "INSTR") 1 1
        initialLoopState.rs := by
  constructor
  · exact (c4_amended_feedback_discipline c4SampleConfig c4SampleOracle
      { initialLoopState with rs.phase := Phase.programmer }).2.1
      { initialLoopState with rs.phase := Phase.analyst } (by decide)
  · exact (c4_amended_feedback_discipline c4SampleConfig c4SampleOracle
      initialLoopState).2.2.2.2.2.2.2 (str "EXPLORE") (str "INSTR") 1 1

end Orch
